import Mathlib

/-!
# subscribe_service: configuration validation, the gRPC gateway, graceful shutdown

A verification development over three source files:

* `internal/config/config.go`  : `Config.ValidateAndSetDefault`, `NewConfig`
* `internal/server/grpc_server.go` : `pubSubServer.Publish`, `pubSubServer.Subscribe`
* `cmd/main.go` : `gracefulShutdown`

Pure code is embedded as Lean functions.  Code that talks to its collaborators
(the broker, the logger, the outbound stream, the gRPC server, goroutines and
channels) is embedded as a tree of effects whose shape follows the Go source
statement by statement; a small-step semantics runs such a tree against an
arbitrary schedule of the environment and records every effect in a trace.
-/

/-! ## Go errors -/

/-- A Go `error` value.  `ErrTopicNotFound` is the sentinel exported by the
`subpub` package; `errorf` is an error made by `errors.New` or by `fmt.Errorf`
without `%w`; `wrap` is an error that wraps another one (`fmt.Errorf` with `%w`). -/
inductive GoError where
  | ErrTopicNotFound
  | errorf (text : String)
  | wrap (text : String) (inner : GoError)
  deriving DecidableEq, Repr

namespace errors

/-- Go `errors.Is(err, target)`: `err` or an error on its `Unwrap` chain equals `target`. -/
def Is : GoError → GoError → Bool
  | .wrap text inner, target =>
      if GoError.wrap text inner = target then true else Is inner target
  | err, target => if err = target then true else false

end errors

/-! ## Logging -/

/-- The zap levels of the log calls in the sources. -/
inductive Level where
  | Debug
  | Info
  | Warn
  | Error
  deriving DecidableEq, Repr

/-! ## internal/config/config.go -/

namespace config

/-- Go `LoggerConfig`. -/
structure LoggerConfig where
  Level : String
  Format : String
  deriving DecidableEq, Repr

/-- Go `GRPCConfig`. -/
structure GRPCConfig where
  Port : String
  Host : String
  deriving DecidableEq, Repr

/-- Go `Config`; `GracefulShutdownTimeout` is a `time.Duration`, a count of nanoseconds. -/
structure Config where
  Logger : LoggerConfig
  GRPC : GRPCConfig
  GracefulShutdownTimeout : Int
  deriving DecidableEq, Repr

/-- Go `(c *Config) ValidateAndSetDefault() error`.  The receiver is a pointer, so the
function returns the error (`none` is `nil`) together with the configuration as the
call leaves it. -/
def ValidateAndSetDefault (c : Config) : Option GoError × Config :=
  let c := if c.Logger.Level = "" then { c with Logger := { c.Logger with Level := "info" } } else c
  let c := if c.Logger.Format = "" then { c with Logger := { c.Logger with Format := "json" } } else c
  if c.GRPC.Port = "" then
    (some (.errorf "gRPC port is required"), c)
  else
    (none, c)

/-- Go `NewConfig(path)`.  Opening the file and decoding its YAML into a zero `Config`
are done by the operating system and the YAML library: `osOpen` and `decode` stand for
them.  The result is `(nil, err)` or `(config, nil)`. -/
def NewConfig (File : Type) (osOpen : String → Except GoError File)
    (decode : File → Except GoError Config) (path : String) : Except GoError Config :=
  match osOpen path with
  | .error err => .error err
  | .ok file =>
    match decode file with
    | .error err => .error err
    | .ok config =>
      match ValidateAndSetDefault config with
      | (some err, _) => .error err
      | (none, config) => .ok config

/-- A configuration with a port, no logger level and the format "console". -/
def sampleConfig : Config :=
  { Logger := { Level := "", Format := "console" },
    GRPC := { Port := "50051", Host := "" },
    GracefulShutdownTimeout := 5000000000 }

end config

/-! ## internal/server/grpc_server.go : data -/

namespace server

/-- Modelled from the spec: the generated message `pb.SubscribeRequest`, absent from the
sources; the spec gives the call as `Subscribe(key: string)`. -/
structure SubscribeRequest where
  Key : String
  deriving DecidableEq, Repr

/-- Modelled from the spec: the generated getter `GetKey` of `pb.SubscribeRequest`. -/
def SubscribeRequest.GetKey (request : SubscribeRequest) : String := request.Key

/-- Modelled from the spec: the generated message `pb.PublishRequest`, absent from the
sources; the spec gives the call as `Publish(key: string, data: string)`. -/
structure PublishRequest where
  Key : String
  Data : String
  deriving DecidableEq, Repr

/-- Modelled from the spec: the generated getter `GetKey` of `pb.PublishRequest`. -/
def PublishRequest.GetKey (request : PublishRequest) : String := request.Key

/-- Modelled from the spec: the generated getter `GetData` of `pb.PublishRequest`. -/
def PublishRequest.GetData (request : PublishRequest) : String := request.Data

/-- Modelled from the spec: the generated message `pb.Event`, absent from the sources;
the spec gives it as `Event{data: string}`. -/
structure Event where
  Data : String
  deriving DecidableEq, Repr

namespace emptypb

/-- The protobuf `emptypb.Empty` acknowledgement. -/
structure Empty where
  deriving DecidableEq, Repr

end emptypb

/-- A Go `interface{}` value, as the broker hands it to a subscriber callback: a string
or a value of some other dynamic type. -/
inductive GoAny where
  | str (s : String)
  | int (n : Int)
  | bytes (b : List Nat)
  | request (r : SubscribeRequest)
  | nil
  deriving DecidableEq, Repr

/-- The gRPC status codes the gateway uses (`codes.InvalidArgument`, ...). -/
inductive codes where
  | InvalidArgument
  | NotFound
  | Internal
  deriving DecidableEq, Repr

/-- A gRPC status error: the value `status.Error(code, msg)` builds. -/
structure Status where
  code : codes
  message : String
  deriving DecidableEq, Repr

namespace status

/-- Go `status.Error(c, msg)`. -/
def Error (c : codes) (msg : String) : Status := { code := c, message := msg }

end status

/-- The handle `subpub.Subscription` the broker returns; its one method is `Unsubscribe`. -/
structure Subscription where
  id : Nat
  deriving DecidableEq, Repr

/-- A structured log field: `zap.String`, `zap.Error`, `zap.Any`. -/
inductive Field where
  | String (key : String) (val : String)
  | Error (err : GoError)
  | Any (key : String) (val : GoAny)
  deriving DecidableEq, Repr

/-- What the gateway does to its collaborators, one entry per call. -/
inductive Action where
  | log (level : Level) (msg : String) (fields : List Field)
  | Publish (key : String) (msg : GoAny)
  | Subscribe (key : String)
  | Unsubscribe (sub : Subscription)
  | Send (ev : Event)
  | ctxDone
  deriving DecidableEq, Repr

/-! ## internal/server/grpc_server.go : effect trees -/

/-- The body of a subscriber callback `func(msg interface{})`: it logs, sends on the
stream `g` (the continuation receives the error `g.Send` returns), and ends by
returning or by a Go panic. -/
inductive Cb where
  | ret
  | goPanic (v : String)
  | log (level : Level) (msg : String) (fields : List Field) (k : Cb)
  | Send (ev : Event) (k : Option GoError → Cb)

/-- The body of a handler returning a value of type `ρ`.  `Publish` and `Subscribe` are
the calls on `G.pubSub` (the continuation receives what the broker returns),
`Unsubscribe` is the call on the subscription, `ctxDone` is the blocking receive
`<-g.Context().Done()`. -/
inductive Prog (ρ : Type) where
  | ret (r : ρ)
  | log (level : Level) (msg : String) (fields : List Field) (k : Prog ρ)
  | Publish (key : String) (msg : GoAny) (k : Option GoError → Prog ρ)
  | Subscribe (key : String) (cb : GoAny → Cb) (k : Except GoError Subscription → Prog ρ)
  | Unsubscribe (sub : Subscription) (k : Prog ρ)
  | ctxDone (k : Prog ρ)

/-! ## internal/server/grpc_server.go : the handlers -/

/-- The closure `func(msg interface{})` that `Subscribe` registers with the broker; it
captures the logger `_log` (with its `op` field), the key and the stream. -/
def Subscribe.callback (key : String) (msg : GoAny) : Cb :=
  let op := "server.pubSubServer.Subscribe"
  let _log := fun level m fields k => Cb.log level m (Field.String "op" op :: fields) k
  _log .Debug "message received" [.Any "msg" msg] <|
  match msg with
  | .str strMsg =>
    .Send { Data := strMsg } fun err =>
    match err with
    | some err => _log .Error "send message error" [.Error err] <| .ret
    | none => .ret
  | _ =>
    _log .Error "message is not string" [.Any "msg" msg, .String "key" key] <| .ret

/-- Go `(G pubSubServer) Subscribe(request, g) error`; the result `none` is `nil`. -/
def Subscribe (request : SubscribeRequest) : Prog (Option Status) :=
  let op := "server.pubSubServer.Subscribe"
  let _log := fun level m fields k => Prog.log level m (Field.String "op" op :: fields) k
  _log .Debug "subscribe request" [.Any "request" (.request request)] <|
  let key := request.GetKey
  if key = "" then
    _log .Warn "request for subscribe without key" [] <|
    .ret (some (status.Error .InvalidArgument "key is required"))
  else
    .Subscribe key (Subscribe.callback key) fun r =>
    match r with
    | .error err =>
      _log .Error "subscribe error" [.Error err] <|
      .ret (some (status.Error .Internal "subscribe error"))
    | .ok sub =>
      .ctxDone <|
      _log .Debug "stream closed, unsubscribing" [.String "key" key] <|
      .Unsubscribe sub <|
      .ret none

/-- Go `(G pubSubServer) Publish(ctx, request) (*emptypb.Empty, error)`; the result is
`(nil, err)` or `(&emptypb.Empty{}, nil)`. -/
def Publish (request : PublishRequest) : Prog (Except Status emptypb.Empty) :=
  let op := "server.pubSubServer.Publish"
  let _log := fun level m fields k => Prog.log level m (Field.String "op" op :: fields) k
  let key := request.GetKey
  if key = "" then
    _log .Warn "request for publish without key" [] <|
    .ret (.error (status.Error .InvalidArgument "key is required"))
  else
    let msg := request.GetData
    if msg = "" then
      _log .Warn "request for publish without message" [] <|
      .ret (.error (status.Error .InvalidArgument "message is required"))
    else
      .Publish key (.str msg) fun err =>
      match err with
      | some err =>
        _log .Error "publish error" [.Error err] <|
        if errors.Is err .ErrTopicNotFound then
          .ret (.error (status.Error .NotFound "topic not found"))
        else
          .ret (.error (status.Error .Internal "publish error"))
      | none => .ret (.ok {})

/-! ## internal/server/grpc_server.go : running a handler -/

/-- The broker `G.pubSub` as the handler sees it: what `Publish` returns (`none` is
`nil`) and what `Subscribe` returns, for each argument. A handler calls the broker at
most once, so one answer per argument covers a broker in any state. -/
structure SubPub where
  Publish : String → GoAny → Option GoError
  Subscribe : String → Except GoError Subscription

/-- Runs a callback body to its end; `send` is what `g.Send` returns for each event.
The result is the calls made, in order, and whether the body returned (`true`) or
panicked (`false`). -/
def runCb (send : Event → Option GoError) : Cb → List Action × Bool
  | .ret => ([], true)
  | .goPanic _ => ([], false)
  | .log level msg fields k =>
      ((Action.log level msg fields) :: (runCb send k).1, (runCb send k).2)
  | .Send ev k =>
      ((Action.Send ev) :: (runCb send (k (send ev))).1, (runCb send (k (send ev))).2)

/-- One call in progress: the rest of the handler body, the callback the broker holds
for it (if any), whether the stream context has been cancelled, and the calls made so
far, oldest first. -/
structure State (ρ : Type) where
  prog : Prog ρ
  cb : Option (GoAny → Cb)
  done : Bool
  trace : List Action

/-- The value the handler returned, once it has returned. -/
def State.result {ρ : Type} (s : State ρ) : Option ρ :=
  match s.prog with
  | .ret r => some r
  | _ => none

/-- A call that has just been dispatched to its handler. -/
def State.init {ρ : Type} (p : Prog ρ) : State ρ :=
  { prog := p, cb := none, done := false, trace := [] }

/-- What can happen next to a call: the handler goroutine runs its next statement; the
broker, on a publisher goroutine, invokes the registered callback with `msg` while the
stream answers `sendResult` to a send; the stream context is cancelled. -/
inductive Tick where
  | handler
  | deliver (msg : GoAny) (sendResult : Option GoError)
  | cancel
  deriving DecidableEq, Repr

/-- One step of a call.  A handler blocked on `<-g.Context().Done()` stays where it is
until the context is cancelled; a delivery reaches the callback from the moment the
broker has accepted the subscription, and is not assumed to stop at `Unsubscribe`. -/
def step {ρ : Type} (pubSub : SubPub) (s : State ρ) : Tick → State ρ
  | .handler =>
    match s.prog with
    | .ret _ => s
    | .log level msg fields k =>
        { s with prog := k, trace := s.trace ++ [.log level msg fields] }
    | .Publish key msg k =>
        { s with prog := k (pubSub.Publish key msg), trace := s.trace ++ [.Publish key msg] }
    | .Subscribe key cb k =>
        match pubSub.Subscribe key with
        | .ok sub =>
            { s with prog := k (.ok sub), cb := some cb, trace := s.trace ++ [.Subscribe key] }
        | .error err =>
            { s with prog := k (.error err), trace := s.trace ++ [.Subscribe key] }
    | .Unsubscribe sub k =>
        { s with prog := k, trace := s.trace ++ [.Unsubscribe sub] }
    | .ctxDone k =>
        if s.done then { s with prog := k, trace := s.trace ++ [.ctxDone] } else s
  | .deliver msg sendResult =>
    match s.cb with
    | none => s
    | some cb => { s with trace := s.trace ++ (runCb (fun _ => sendResult) (cb msg)).1 }
  | .cancel => { s with done := true }

/-- Runs a call along a schedule. -/
def run {ρ : Type} (pubSub : SubPub) (s : State ρ) (sched : List Tick) : State ρ :=
  sched.foldl (step pubSub) s

/-- The state of a call to the handler `p` after the schedule `sched`. -/
def serve {ρ : Type} (pubSub : SubPub) (p : Prog ρ) (sched : List Tick) : State ρ :=
  run pubSub (State.init p) sched

/-- The number of times the schedule lets the handler goroutine run. -/
def handlerTicks (sched : List Tick) : Nat :=
  sched.count Tick.handler

/-- Whether an action is a call of the broker. -/
def Action.isBrokerCall : Action → Bool
  | .Publish _ _ => true
  | .Subscribe _ => true
  | _ => false

/-- Whether an action is an `Unsubscribe`. -/
def Action.isUnsubscribe : Action → Bool
  | .Unsubscribe _ => true
  | _ => false

/-- Whether an action is a send on the stream. -/
def Action.isSend : Action → Bool
  | .Send _ => true
  | _ => false

/-- A broker that accepts every publish and every subscription. -/
def okBroker : SubPub :=
  { Publish := fun _ _ => none, Subscribe := fun _ => .ok { id := 7 } }

/-- A broker without subscribers that is shutting down: publishing finds no topic,
subscribing fails. -/
def failingBroker : SubPub :=
  { Publish := fun _ _ => some (.wrap "publish" .ErrTopicNotFound),
    Subscribe := fun _ => .error (.errorf "broker closed") }

/-- A schedule for one subscriber: the handler registers, a message is delivered, a
second delivery meets a failing send, the stream is cancelled, the handler runs on. -/
def sampleSchedule : List Tick :=
  [Tick.handler, Tick.handler, Tick.deliver (.str "item-1") none,
   Tick.deliver (.str "item-2") (some (.errorf "transport is closing")),
   Tick.cancel,
   Tick.handler, Tick.handler, Tick.handler, Tick.handler, Tick.handler]

/-! ## internal/server/grpc_server.go : control points of `Subscribe` -/

/-- The control points of a `Subscribe` call whose subscription the broker accepts: at
the first log call, at the call of the broker, blocked on the context, woken by the
cancellation, at `Unsubscribe`, returned. -/
inductive SubscribePc where
  | entry
  | registering
  | waiting
  | woken
  | unsubscribing
  | returned
  deriving DecidableEq, Repr

/-- The number of handler steps that lead to a control point. -/
def SubscribePc.rank : SubscribePc → Nat
  | .entry => 0
  | .registering => 1
  | .waiting => 2
  | .woken => 3
  | .unsubscribing => 4
  | .returned => 5

/-- What holds of a call at each control point: the rest of the body (`K` is the
continuation of the broker call), the registered callback, the cancellation flag, and
the `Unsubscribe` calls made so far. -/
def SubscribeAt (request : SubscribeRequest)
    (K : Except GoError Subscription → Prog (Option Status)) (sub : Subscription) :
    SubscribePc → State (Option Status) → Prop
  | .entry, s =>
      s.prog = Subscribe request ∧ s.cb = none ∧
      s.trace.filter Action.isUnsubscribe = []
  | .registering, s =>
      s.prog = .Subscribe request.Key (Subscribe.callback request.Key) K ∧ s.cb = none ∧
      s.trace.filter Action.isUnsubscribe = []
  | .waiting, s =>
      s.prog = K (.ok sub) ∧ s.cb = some (Subscribe.callback request.Key) ∧
      s.trace.filter Action.isUnsubscribe = []
  | .woken, s =>
      s.prog = .log .Debug "stream closed, unsubscribing"
        [.String "op" "server.pubSubServer.Subscribe", .String "key" request.Key]
        (.Unsubscribe sub (.ret none)) ∧
      s.done = true ∧ s.cb = some (Subscribe.callback request.Key) ∧
      s.trace.filter Action.isUnsubscribe = []
  | .unsubscribing, s =>
      s.prog = .Unsubscribe sub (.ret none) ∧
      s.done = true ∧ s.cb = some (Subscribe.callback request.Key) ∧
      s.trace.filter Action.isUnsubscribe = []
  | .returned, s =>
      s.prog = .ret none ∧
      s.done = true ∧ s.cb = some (Subscribe.callback request.Key) ∧
      s.trace.filter Action.isUnsubscribe = [.Unsubscribe sub]

end server

/-! ## cmd/main.go -/

namespace main

/-- What `gracefulShutdown` and the goroutine it starts do, one entry per statement
that acts on the logger, the gRPC server, the channel `done` or the timer; `recvDone`
and `recvTimer` are the two receives of the `select`. -/
inductive Action where
  | log (level : Level) (msg : String)
  | makeDone
  | go
  | GracefulStop
  | closeDone
  | timeAfter (timeout : Int)
  | recvDone
  | recvTimer
  | Stop
  deriving DecidableEq, Repr

/-- The body of the goroutine `go func() {...}()`: calls of `grpcServer.GracefulStop()`
and `close(done)`. -/
inductive Bg where
  | exit
  | GracefulStop (k : Bg)
  | closeDone (k : Bg)
  deriving DecidableEq, Repr

/-- The body of a function of `main.go` without a result: it returns or panics, logs,
makes the channel `done`, starts a goroutine, selects between `<-done` and
`<-time.After(timeout)`, or calls `grpcServer.Stop()`. -/
inductive Prog where
  | ret
  | goPanic (v : String)
  | log (level : Level) (msg : String) (k : Prog)
  | makeDone (k : Prog)
  | go (body : Bg) (k : Prog)
  | selectDoneOrAfter (timeout : Int) (onDone : Prog) (onTimer : Prog)
  | Stop (k : Prog)
  deriving DecidableEq, Repr

/-- Go `gracefulShutdown(grpcServer, log, timeout)`; `timeout` is a `time.Duration`. -/
def gracefulShutdown (timeout : Int) : Prog :=
  .log .Info "Starting graceful shutdown" <|
  .makeDone <|
  .go (.GracefulStop <| .closeDone <| .exit) <|
  .selectDoneOrAfter timeout
    (.log .Info "gRPC server stopped gracefully" <| .ret)
    (.log .Warn "Graceful shutdown timed out, forcing stop" <|
     .Stop <|
     .ret)

/-- How a call ended. -/
inductive Outcome where
  | returned
  | panicked (v : String)
  deriving DecidableEq, Repr

/-- A call of `gracefulShutdown` in progress.  `prog` is the rest of its body and `bg`
the rest of the goroutine it started (`none` before the `go` statement).
`inGracefulStop` says the goroutine is inside `GracefulStop`, which returns once
`drained` holds: the in-flight calls have finished, or `Stop` has been called.
`doneClosed` says `done` is closed; `timer` is `none` before `time.After` is
evaluated, then `some fired`; `now` is the clock, in nanoseconds, `armedAt` the time at
which `time.After` was evaluated and `deadline` the time at which its timer is due;
`parked` says the `select` found neither channel ready and sleeps until one of them
wakes it. -/
structure State where
  prog : Prog
  bg : Option Bg
  inGracefulStop : Bool
  drained : Bool
  doneClosed : Bool
  timer : Option Bool
  now : Int
  armedAt : Int
  deadline : Int
  parked : Bool
  trace : List Action
  deriving DecidableEq, Repr

/-- How the call ended, once it has ended. -/
def State.result (s : State) : Option Outcome :=
  match s.prog with
  | .ret => some .returned
  | .goPanic v => some (.panicked v)
  | _ => none

/-- A call that is about to run its first statement. -/
def State.init (p : Prog) : State :=
  { prog := p, bg := none, inGracefulStop := false, drained := false, doneClosed := false,
    timer := none, now := 0, armedAt := 0, deadline := 0, parked := false, trace := [] }

/-- What can happen next: the calling goroutine runs its next statement (`pickTimer`
is the choice the `select` makes when both channels are ready); the started goroutine
runs its next statement; the in-flight calls finish; the runtime delivers the timer
(which it does only once the timer is due); `d` nanoseconds pass. -/
inductive Tick where
  | main (pickTimer : Bool)
  | bg
  | drained
  | timer
  | elapse (d : Nat)
  deriving DecidableEq, Repr

/-- The `select` takes the case `<-done`. -/
def State.takeDone (s : State) (onDone : Prog) : State :=
  { s with prog := onDone, parked := false, trace := s.trace ++ [.recvDone] }

/-- The `select` takes the case `<-time.After(timeout)`. -/
def State.takeTimer (s : State) (onTimer : Prog) : State :=
  { s with prog := onTimer, parked := false, trace := s.trace ++ [.recvTimer] }

/-- One step.  The `select` first evaluates `time.After(timeout)`, which starts a timer
due `timeout` after the current time (at once when `timeout` is zero or negative); at
its next step it takes a ready case, either one when both are ready, and parks when
none is; a parked `select` is woken by the first of `close(done)` and the timer, with
that case.  The timer fires only when it is due. -/
def step (s : State) : Tick → State
  | .main pickTimer =>
    match s.prog with
    | .ret => s
    | .goPanic _ => s
    | .log level msg k => { s with prog := k, trace := s.trace ++ [.log level msg] }
    | .makeDone k => { s with prog := k, doneClosed := false, trace := s.trace ++ [.makeDone] }
    | .go body k => { s with prog := k, bg := some body, trace := s.trace ++ [.go] }
    | .Stop k => { s with prog := k, drained := true, trace := s.trace ++ [.Stop] }
    | .selectDoneOrAfter timeout onDone onTimer =>
      match s.timer with
      | none =>
        { s with timer := some false, armedAt := s.now, deadline := s.now + timeout,
                 trace := s.trace ++ [.timeAfter timeout] }
      | some fired =>
        if s.parked then s
        else if s.doneClosed && fired then
          (if pickTimer then s.takeTimer onTimer else s.takeDone onDone)
        else if s.doneClosed then s.takeDone onDone
        else if fired then s.takeTimer onTimer
        else { s with parked := true }
  | .bg =>
    match s.bg with
    | some (.GracefulStop k) =>
      if s.inGracefulStop then
        (if s.drained then { s with bg := some k, inGracefulStop := false } else s)
      else { s with inGracefulStop := true, trace := s.trace ++ [.GracefulStop] }
    | some (.closeDone k) =>
      let closed : State :=
        { s with bg := some k, doneClosed := true, trace := s.trace ++ [.closeDone] }
      match s.prog with
      | .selectDoneOrAfter _ onDone _ => if s.parked then closed.takeDone onDone else closed
      | _ => closed
    | _ => s
  | .drained => { s with drained := true }
  | .timer =>
    match s.timer with
    | some false =>
      if s.deadline ≤ s.now then
        let fired : State := { s with timer := some true }
        match s.prog with
        | .selectDoneOrAfter _ _ onTimer =>
          if s.parked then fired.takeTimer onTimer else fired
        | _ => fired
      else s
    | _ => s
  | .elapse d => { s with now := s.now + d }

/-- Runs a call along a schedule. -/
def run (s : State) (sched : List Tick) : State :=
  sched.foldl step s

/-- The state of a call of `gracefulShutdown(timeout)` after the schedule `sched`. -/
def shutdown (timeout : Int) (sched : List Tick) : State :=
  run (State.init (gracefulShutdown timeout)) sched

/-- Whether a tick is a step of the calling goroutine. -/
def Tick.isMain : Tick → Bool
  | .main _ => true
  | _ => false

/-- The number of steps the schedule gives to the calling goroutine. -/
def mainTicks (sched : List Tick) : Nat :=
  sched.countP Tick.isMain

/-! ## cmd/main.go : control points of `gracefulShutdown` -/

/-- Whether an action is made by the calling goroutine (and not by the one it started). -/
def Action.isMain : Action → Bool
  | .GracefulStop => false
  | .closeDone => false
  | _ => true

/-- The control points of a call of `gracefulShutdown`: its first three statements, the
`select` before and after `time.After` is evaluated, the `select` asleep, the two
statements of the case `<-done`, the three of the case `<-time.After(timeout)`. -/
inductive ShutdownPc where
  | entry
  | making
  | spawning
  | arming
  | polling
  | parked
  | doneLog
  | doneRet
  | timerLog
  | stopping
  | forcedRet
  deriving DecidableEq, Repr

/-- The number of statements the calling goroutine has run before the `select` can
take a case (at most four: the `select` then stays until a channel is ready). -/
def ShutdownPc.rank : ShutdownPc → Nat
  | .entry => 0
  | .making => 1
  | .spawning => 2
  | .arming => 3
  | _ => 4

/-- The number of steps of the calling goroutine that are enough for it to return,
provided a channel of the `select` is ready. -/
def ShutdownPc.toReturn : ShutdownPc → Nat
  | .entry => 7
  | .making => 6
  | .spawning => 5
  | .arming => 4
  | .polling => 3
  | .parked => 3
  | .doneLog => 1
  | .doneRet => 0
  | .timerLog => 2
  | .stopping => 1
  | .forcedRet => 0

/-- The number of statements left to run once the `select` has taken a case. -/
def ShutdownPc.remaining : ShutdownPc → Nat
  | .doneLog => 1
  | .timerLog => 2
  | .stopping => 1
  | _ => 0

/-- Whether the `select` has taken the case `<-done`. -/
def ShutdownPc.tookDone : ShutdownPc → Bool
  | .doneLog => true
  | .doneRet => true
  | _ => false

/-- Whether the `select` has taken the case `<-time.After(timeout)`. -/
def ShutdownPc.tookTimer : ShutdownPc → Bool
  | .timerLog => true
  | .stopping => true
  | .forcedRet => true
  | _ => false

/-- Whether a step may lead from the control point `pc` to `pc2`: never backwards;
before the `select` a step of the calling goroutine leads to the next statement; once
the `select` has taken a case the call stays in that case, and a step of the calling
goroutine runs one of the statements left; outside the `select` every step of the
calling goroutine brings the return one step nearer. -/
def ShutdownPc.follows (byMain : Bool) (pc pc2 : ShutdownPc) : Bool :=
  decide (pc.rank ≤ pc2.rank) &&
  decide (pc2.toReturn ≤ pc.toReturn) &&
  (!byMain || decide (pc = .polling) || decide (pc = .parked) ||
    decide (pc2.toReturn ≤ pc.toReturn - 1)) &&
  (!byMain || decide (4 ≤ pc.rank) || decide (pc2.rank = pc.rank + 1)) &&
  (!pc.tookDone || (pc2.tookDone && decide (pc2.remaining ≤ pc.remaining) &&
    (!byMain || decide (pc2.remaining ≤ pc.remaining - 1)))) &&
  (!pc.tookTimer || (pc2.tookTimer && decide (pc2.remaining ≤ pc.remaining) &&
    (!byMain || decide (pc2.remaining ≤ pc.remaining - 1))))

/-- The body of the goroutine `gracefulShutdown` starts. -/
def drainBody : Bg := .GracefulStop (.closeDone .exit)

/-- The `select` statement of `gracefulShutdown`. -/
def selectStmt (timeout : Int) : Prog :=
  .selectDoneOrAfter timeout
    (.log .Info "gRPC server stopped gracefully" .ret)
    (.log .Warn "Graceful shutdown timed out, forcing stop" (.Stop .ret))

/-- The actions of the calling goroutine up to the evaluation of `time.After`. -/
def prefixTrace (timeout : Int) : List Action :=
  [.log .Info "Starting graceful shutdown", .makeDone, .go, .timeAfter timeout]

/-- What holds of a call at each control point: the rest of the body, whether the
goroutine has been started, the timer, the channel, whether the `select` sleeps, and
the actions of the calling goroutine so far. -/
def ShutdownAt (timeout : Int) : ShutdownPc → State → Prop
  | .entry, s =>
      s.prog = gracefulShutdown timeout ∧ s.bg = none ∧ s.timer = none ∧ s.parked = false ∧
      s.doneClosed = false ∧ s.trace = []
  | .making, s =>
      s.prog = .makeDone (.go drainBody (selectStmt timeout)) ∧ s.bg = none ∧
      s.timer = none ∧ s.parked = false ∧ s.doneClosed = false ∧
      s.trace = [.log .Info "Starting graceful shutdown"]
  | .spawning, s =>
      s.prog = .go drainBody (selectStmt timeout) ∧ s.bg = none ∧
      s.timer = none ∧ s.parked = false ∧ s.doneClosed = false ∧
      s.trace = [.log .Info "Starting graceful shutdown", .makeDone]
  | .arming, s =>
      s.prog = selectStmt timeout ∧ s.bg ≠ none ∧ s.timer = none ∧ s.parked = false ∧
      s.trace.filter Action.isMain = [.log .Info "Starting graceful shutdown", .makeDone, .go]
  | .polling, s =>
      s.prog = selectStmt timeout ∧ s.bg ≠ none ∧ s.timer ≠ none ∧ s.parked = false ∧
      s.trace.filter Action.isMain = prefixTrace timeout
  | .parked, s =>
      s.prog = selectStmt timeout ∧ s.bg ≠ none ∧ s.timer = some false ∧ s.parked = true ∧
      s.doneClosed = false ∧
      s.trace.filter Action.isMain = prefixTrace timeout
  | .doneLog, s =>
      s.prog = .log .Info "gRPC server stopped gracefully" .ret ∧ s.bg ≠ none ∧
      s.timer ≠ none ∧ s.parked = false ∧ s.doneClosed = true ∧
      s.trace.filter Action.isMain = prefixTrace timeout ++ [.recvDone]
  | .doneRet, s =>
      s.prog = .ret ∧ s.bg ≠ none ∧ s.timer ≠ none ∧ s.parked = false ∧
      s.doneClosed = true ∧
      s.trace.filter Action.isMain = prefixTrace timeout ++
        [.recvDone, .log .Info "gRPC server stopped gracefully"]
  | .timerLog, s =>
      s.prog = .log .Warn "Graceful shutdown timed out, forcing stop" (.Stop .ret) ∧
      s.bg ≠ none ∧ s.timer = some true ∧ s.parked = false ∧
      s.trace.filter Action.isMain = prefixTrace timeout ++ [.recvTimer]
  | .stopping, s =>
      s.prog = .Stop .ret ∧ s.bg ≠ none ∧ s.timer = some true ∧ s.parked = false ∧
      s.trace.filter Action.isMain = prefixTrace timeout ++
        [.recvTimer, .log .Warn "Graceful shutdown timed out, forcing stop"]
  | .forcedRet, s =>
      s.prog = .ret ∧ s.bg ≠ none ∧ s.timer = some true ∧ s.parked = false ∧
      s.trace.filter Action.isMain = prefixTrace timeout ++
        [.recvTimer, .log .Warn "Graceful shutdown timed out, forcing stop", .Stop]

/-- What holds of the timer: once `time.After(timeout)` has been evaluated the timer is
due `timeout` after that moment, which is not in the future, and it has fired only if
it is due. -/
def TimerAt (timeout : Int) (s : State) : Prop :=
  s.timer = none ∨
  (s.deadline = s.armedAt + timeout ∧ s.armedAt ≤ s.now ∧
    (s.timer = some true → s.deadline ≤ s.now))

/-- Whether a channel of the `select` is ready: `done` is closed or the timer has fired. -/
def State.ready (s : State) : Prop :=
  s.doneClosed = true ∨ s.timer = some true

/-- The number of steps the schedule gives to the started goroutine. -/
def bgTicks (sched : List Tick) : Nat :=
  sched.count Tick.bg

/-- The number of steps the started goroutine has left until `done` is closed, once
the in-flight calls have finished: enter `GracefulStop`, return from it, `close(done)`. -/
def State.bgLeft (s : State) : Nat :=
  match s.bg with
  | some (.GracefulStop _) => if s.inGracefulStop then 2 else 3
  | some (.closeDone _) => 1
  | _ => 0

/-- What holds of the started goroutine: it is about to call `GracefulStop`, or has
called it and `done` is still open, or has closed `done` after it. -/
def DrainAt (s : State) : Prop :=
  ((s.bg = none ∨ s.bg = some drainBody) ∧ s.doneClosed = false ∧
    (s.inGracefulStop = true → Action.GracefulStop ∈ s.trace)) ∨
  (s.bg = some (.closeDone .exit) ∧ s.doneClosed = false ∧
    Action.GracefulStop ∈ s.trace) ∨
  (s.bg = some .exit ∧ s.doneClosed = true ∧
    Action.GracefulStop ∈ s.trace ∧ Action.closeDone ∈ s.trace)

/-! ## cmd/main.go : schedules -/

/-- A schedule in which the drain completes before the `select` starts: the three
first statements, then the goroutine enters `GracefulStop`, the in-flight calls
finish, `GracefulStop` returns and `done` is closed. -/
def drainFirstPrefix : List Tick :=
  [Tick.main false, Tick.main false, Tick.main false, Tick.bg, Tick.drained, Tick.bg,
   Tick.bg]

/-- The rest of that schedule: the `select` evaluates `time.After(0)`, the timer fires,
the `select` finds both channels ready and takes the timer, then the two statements of
that case run. -/
def tieSuffix : List Tick :=
  [Tick.main false, Tick.timer, Tick.main true, Tick.main false, Tick.main false]

/-- The rest of the same schedule when the `select`, finding both channels ready, takes
`<-done` instead: the one statement of that case runs. -/
def tieDoneSuffix : List Tick :=
  [Tick.main false, Tick.timer, Tick.main false, Tick.main false]

/-- A schedule in which the goroutine is started but does not get to run: the `select`
evaluates `time.After(0)`, the timer fires, the `select` takes it and the two
statements of that case run. -/
def stopBeforeDrainSchedule : List Tick :=
  [Tick.main false, Tick.main false, Tick.main false, Tick.main false, Tick.timer,
   Tick.main false, Tick.main false, Tick.main false]

end main

/-! ## Configuration: theorems -/

namespace config

/-- C7: `ValidateAndSetDefault` returns an error exactly when `grpc.port` is the empty
string, and the error is then "gRPC port is required"; the host, the shutdown timeout
and the logger values play no part in whether it fails. -/
theorem validate_error_iff_port_empty (c : Config) :
    (((ValidateAndSetDefault c).1 ≠ none) ↔ c.GRPC.Port = "") ∧
    ((ValidateAndSetDefault c).1 = none ∨
      (ValidateAndSetDefault c).1 = some (.errorf "gRPC port is required")) ∧
    (∀ (l : LoggerConfig) (host : String) (t : Int),
      (ValidateAndSetDefault
          { Logger := l, GRPC := { Port := c.GRPC.Port, Host := host },
            GracefulShutdownTimeout := t }).1 = (ValidateAndSetDefault c).1) := by
  refine ⟨?_, ?_, ?_⟩
  · unfold ValidateAndSetDefault
    by_cases hl : c.Logger.Level = "" <;> by_cases hf : c.Logger.Format = "" <;>
      by_cases hp : c.GRPC.Port = "" <;> simp [hl, hf, hp]
  · unfold ValidateAndSetDefault
    by_cases hl : c.Logger.Level = "" <;> by_cases hf : c.Logger.Format = "" <;>
      by_cases hp : c.GRPC.Port = "" <;> simp [hl, hf, hp]
  · intro l host t
    unfold ValidateAndSetDefault
    by_cases hl : c.Logger.Level = "" <;> by_cases hf : c.Logger.Format = "" <;>
      by_cases hp : c.GRPC.Port = "" <;>
      by_cases hl2 : l.Level = "" <;> by_cases hf2 : l.Format = "" <;>
      simp [hl, hf, hp, hl2, hf2]

/-- C8: when `grpc.port` is not empty the call succeeds, the logger level becomes
"info" if it was empty and keeps its value otherwise, the logger format becomes "json"
if it was empty and keeps its value otherwise, and `grpc.host`, `grpc.port` and the
graceful shutdown timeout are unchanged; `NewConfig` hands out exactly that
configuration when the file opens and decodes. -/
theorem validate_defaults_and_frame (c : Config) (hport : c.GRPC.Port ≠ "") :
    (ValidateAndSetDefault c).1 = none ∧
    (ValidateAndSetDefault c).2.Logger.Level
      = (if c.Logger.Level = "" then "info" else c.Logger.Level) ∧
    (ValidateAndSetDefault c).2.Logger.Format
      = (if c.Logger.Format = "" then "json" else c.Logger.Format) ∧
    (ValidateAndSetDefault c).2.GRPC.Host = c.GRPC.Host ∧
    (ValidateAndSetDefault c).2.GRPC.Port = c.GRPC.Port ∧
    (ValidateAndSetDefault c).2.GracefulShutdownTimeout = c.GracefulShutdownTimeout ∧
    (∀ (File : Type) (osOpen : String → Except GoError File)
        (decode : File → Except GoError Config) (path : String) (file : File),
      osOpen path = .ok file → decode file = .ok c →
      NewConfig File osOpen decode path = .ok (ValidateAndSetDefault c).2) := by
  have h1 : (ValidateAndSetDefault c).1 = none := by
    unfold ValidateAndSetDefault
    by_cases hl : c.Logger.Level = "" <;> by_cases hf : c.Logger.Format = "" <;>
      simp [hl, hf, hport]
  refine ⟨h1, ?_, ?_, ?_, ?_, ?_, ?_⟩
  · unfold ValidateAndSetDefault
    by_cases hl : c.Logger.Level = "" <;> by_cases hf : c.Logger.Format = "" <;>
      simp [hl, hf, hport]
  · unfold ValidateAndSetDefault
    by_cases hl : c.Logger.Level = "" <;> by_cases hf : c.Logger.Format = "" <;>
      simp [hl, hf, hport]
  · unfold ValidateAndSetDefault
    by_cases hl : c.Logger.Level = "" <;> by_cases hf : c.Logger.Format = "" <;>
      simp [hl, hf, hport]
  · unfold ValidateAndSetDefault
    by_cases hl : c.Logger.Level = "" <;> by_cases hf : c.Logger.Format = "" <;>
      simp [hl, hf, hport]
  · unfold ValidateAndSetDefault
    by_cases hl : c.Logger.Level = "" <;> by_cases hf : c.Logger.Format = "" <;>
      simp [hl, hf, hport]
  · intro File osOpen decode path file ho hd
    simp only [NewConfig, ho, hd]
    cases hv : ValidateAndSetDefault c with
    | mk e c2 =>
      rw [hv] at h1
      simp only at h1
      subst h1
      rfl

/-- C8 at a concrete input: a configuration with port "50051", no level and format "console"
comes out with level "info", format "console" and the rest untouched. -/
theorem validate_defaults_and_frame_witness :
    sampleConfig.GRPC.Port ≠ "" ∧
    (ValidateAndSetDefault sampleConfig).2.Logger.Level = "info" ∧
    (ValidateAndSetDefault sampleConfig).2.Logger.Format = "console" := by
  have hp : sampleConfig.GRPC.Port ≠ "" := by decide
  have h := validate_defaults_and_frame sampleConfig hp
  refine ⟨hp, ?_, ?_⟩
  · rw [h.2.1]; decide
  · rw [h.2.2.1]; decide

/-- C10: the logger defaults are applied before the port check.  With an empty
`grpc.port` the call returns the error and still leaves level and format defaulted
("info" / "json" where they were empty); for every configuration level and format are
non-empty after the call, and a second call returns the same result and changes nothing. -/
theorem validate_not_atomic_and_idempotent (c : Config) :
    (c.GRPC.Port = "" →
      (ValidateAndSetDefault c).1 = some (.errorf "gRPC port is required") ∧
      (ValidateAndSetDefault c).2.Logger.Level
        = (if c.Logger.Level = "" then "info" else c.Logger.Level) ∧
      (ValidateAndSetDefault c).2.Logger.Format
        = (if c.Logger.Format = "" then "json" else c.Logger.Format)) ∧
    (ValidateAndSetDefault c).2.Logger.Level ≠ "" ∧
    (ValidateAndSetDefault c).2.Logger.Format ≠ "" ∧
    ValidateAndSetDefault (ValidateAndSetDefault c).2 = ValidateAndSetDefault c := by
  refine ⟨?_, ?_, ?_, ?_⟩
  · intro hp
    unfold ValidateAndSetDefault
    by_cases hl : c.Logger.Level = "" <;> by_cases hf : c.Logger.Format = "" <;>
      simp [hl, hf, hp]
  · unfold ValidateAndSetDefault
    by_cases hl : c.Logger.Level = "" <;> by_cases hf : c.Logger.Format = "" <;>
      by_cases hp : c.GRPC.Port = "" <;> simp [hl, hf, hp]
  · unfold ValidateAndSetDefault
    by_cases hl : c.Logger.Level = "" <;> by_cases hf : c.Logger.Format = "" <;>
      by_cases hp : c.GRPC.Port = "" <;> simp [hl, hf, hp]
  · unfold ValidateAndSetDefault
    by_cases hl : c.Logger.Level = "" <;> by_cases hf : c.Logger.Format = "" <;>
      by_cases hp : c.GRPC.Port = "" <;> simp [hl, hf, hp]

end config

/-! ## Gateway: running a handler along a schedule -/

namespace server

theorem run_nil {ρ : Type} (pubSub : SubPub) (s : State ρ) : run pubSub s [] = s := rfl

theorem run_cons {ρ : Type} (pubSub : SubPub) (s : State ρ) (t : Tick) (ts : List Tick) :
    run pubSub s (t :: ts) = run pubSub (step pubSub s t) ts := rfl

theorem run_append {ρ : Type} (pubSub : SubPub) (s : State ρ) (a b : List Tick) :
    run pubSub s (a ++ b) = run pubSub (run pubSub s a) b := by
  simp [run, List.foldl_append]

theorem handlerTicks_nil : handlerTicks [] = 0 := rfl

theorem handlerTicks_cons_handler (ts : List Tick) :
    handlerTicks (Tick.handler :: ts) = handlerTicks ts + 1 := by
  simp [handlerTicks]

theorem handlerTicks_cons_other (t : Tick) (ts : List Tick) (h : t ≠ Tick.handler) :
    handlerTicks (t :: ts) = handlerTicks ts := by
  simp [handlerTicks, List.count_cons, h]

/-- Induction along a schedule, counting the handler steps taken. -/
theorem run_induction {ρ : Type} (pubSub : SubPub) (I : Nat → State ρ → Prop)
    (hH : ∀ n s, I n s → I (n + 1) (step pubSub s Tick.handler))
    (hO : ∀ n s t, t ≠ Tick.handler → I n s → I n (step pubSub s t))
    (sched : List Tick) :
    ∀ n s, I n s → I (n + handlerTicks sched) (run pubSub s sched) := by
  induction sched with
  | nil => intro n s h; simpa [run_nil, handlerTicks_nil] using h
  | cons t ts ih =>
    intro n s h
    rw [run_cons]
    by_cases ht : t = Tick.handler
    · subst ht
      rw [handlerTicks_cons_handler]
      have := ih (n + 1) _ (hH n s h)
      rwa [Nat.add_assoc, Nat.add_comm 1] at this
    · rw [handlerTicks_cons_other t ts ht]
      exact ih n _ (hO n s t ht h)

/-- With no callback registered, a schedule either never runs the handler, and then
changes at most the cancellation flag, or runs its first handler step from the state it
started in, again up to the cancellation flag. -/
theorem run_peel {ρ : Type} (pubSub : SubPub) (sched : List Tick) :
    ∀ s : State ρ, s.cb = none →
    (handlerTicks sched = 0 ∧ ∃ d, run pubSub s sched = { s with done := d }) ∨
    (∃ d b, handlerTicks sched = handlerTicks b + 1 ∧
      run pubSub s sched = run pubSub (step pubSub { s with done := d } Tick.handler) b) := by
  induction sched with
  | nil => intro s _; exact Or.inl ⟨rfl, s.done, rfl⟩
  | cons t ts ih =>
    intro s hcb
    cases t with
    | handler =>
      exact Or.inr ⟨s.done, ts, handlerTicks_cons_handler ts, rfl⟩
    | deliver msg sr =>
      have hs : step pubSub s (Tick.deliver msg sr) = s := by simp [step, hcb]
      rw [run_cons, hs, handlerTicks_cons_other _ _ (by simp)]
      exact ih s hcb
    | cancel =>
      have hs : step pubSub s Tick.cancel = { s with done := true } := rfl
      rw [run_cons, hs, handlerTicks_cons_other _ _ (by simp)]
      rcases ih { s with done := true } hcb with ⟨h0, d, hd⟩ | ⟨d, b, hb, hd⟩
      · exact Or.inl ⟨h0, d, hd⟩
      · exact Or.inr ⟨d, b, hb, hd⟩

/-- A handler that has returned stays returned, and with no callback registered
nothing more is recorded. -/
theorem run_ret {ρ : Type} (pubSub : SubPub) (r : ρ) (sched : List Tick) :
    ∀ s : State ρ, s.cb = none → s.prog = .ret r →
    (run pubSub s sched).prog = .ret r ∧ (run pubSub s sched).trace = s.trace ∧
    (run pubSub s sched).cb = none := by
  induction sched with
  | nil => intro s hcb hp; exact ⟨hp, rfl, hcb⟩
  | cons t ts ih =>
    intro s hcb hp
    rw [run_cons]
    cases t with
    | handler =>
      have hs : step pubSub s Tick.handler = s := by simp [step, hp]
      rw [hs]; exact ih s hcb hp
    | deliver msg sr =>
      have hs : step pubSub s (Tick.deliver msg sr) = s := by simp [step, hcb]
      rw [hs]; exact ih s hcb hp
    | cancel =>
      exact ih { s with done := true } hcb hp

/-- A handler about to log and then return: it has done one or the other. -/
theorem run_log_ret {ρ : Type} (pubSub : SubPub) (l : Level) (m : String) (f : List Field)
    (r : ρ) (sched : List Tick) (s : State ρ) (hcb : s.cb = none)
    (hp : s.prog = .log l m f (.ret r)) :
    (run pubSub s sched).cb = none ∧
    ((handlerTicks sched = 0 ∧ (run pubSub s sched).prog = .log l m f (.ret r) ∧
        (run pubSub s sched).trace = s.trace) ∨
    (1 ≤ handlerTicks sched ∧ (run pubSub s sched).prog = .ret r ∧
        (run pubSub s sched).trace = s.trace ++ [.log l m f])) := by
  rcases run_peel pubSub sched s hcb with ⟨h0, d, hrun⟩ | ⟨d, b, hb, hrun⟩
  · exact ⟨by rw [hrun]; exact hcb, Or.inl ⟨h0, by rw [hrun]; exact hp, by rw [hrun]⟩⟩
  · have hs : step pubSub { s with done := d } Tick.handler
        = { prog := .ret r, cb := none, done := d, trace := s.trace ++ [.log l m f] } := by
      simp [step, hp, hcb]
    rw [hs] at hrun
    obtain ⟨hp2, ht2, hc2⟩ := run_ret pubSub r b
      { prog := .ret r, cb := none, done := d, trace := s.trace ++ [.log l m f] } rfl rfl
    rw [← hrun] at hp2 ht2 hc2
    exact ⟨hc2, Or.inr ⟨by omega, hp2, ht2⟩⟩

/-- C1: a publish request with an empty key or empty data is answered with
`InvalidArgument` and the broker's `Publish` is never called, on every schedule: the
message is "key is required" when the key is empty (whatever the data) and "message is
required" when only the data is empty; the handler returns at its first step. -/
theorem publish_rejects_empty_key_or_data (pubSub : SubPub) (request : PublishRequest)
    (sched : List Tick) (h : request.Key = "" ∨ request.Data = "") :
    (∀ key msg, Action.Publish key msg ∉ (serve pubSub (Publish request) sched).trace) ∧
    ((serve pubSub (Publish request) sched).result = none ∨
      (serve pubSub (Publish request) sched).result
        = some (.error (status.Error .InvalidArgument
            (if request.Key = "" then "key is required" else "message is required")))) ∧
    (1 ≤ handlerTicks sched →
      (serve pubSub (Publish request) sched).result
        = some (.error (status.Error .InvalidArgument
            (if request.Key = "" then "key is required" else "message is required")))) := by
  have hP : ∃ m, Publish request = .log .Warn m [.String "op" "server.pubSubServer.Publish"]
      (.ret (.error (status.Error .InvalidArgument
        (if request.Key = "" then "key is required" else "message is required")))) := by
    by_cases hk : request.Key = ""
    · exact ⟨"request for publish without key", by simp [Publish, PublishRequest.GetKey, hk]⟩
    · have hd : request.Data = "" := h.resolve_left hk
      exact ⟨"request for publish without message",
        by simp [Publish, PublishRequest.GetKey, PublishRequest.GetData, hk, hd]⟩
  obtain ⟨m, hm⟩ := hP
  unfold serve
  rcases run_log_ret pubSub .Warn m [.String "op" "server.pubSubServer.Publish"]
    (Except.error (status.Error .InvalidArgument
        (if request.Key = "" then "key is required" else "message is required")) :
      Except Status emptypb.Empty) sched (State.init (Publish request)) rfl hm
    with ⟨_, ⟨h0, hp, ht⟩ | ⟨h1, hp, ht⟩⟩
  · refine ⟨?_, Or.inl ?_, ?_⟩
    · intro key msg; rw [ht]; simp [State.init]
    · simp [State.result, hp]
    · intro h1; omega
  · refine ⟨?_, Or.inr ?_, ?_⟩
    · intro key msg; rw [ht]; simp [State.init]
    · simp [State.result, hp]
    · intro _; simp [State.result, hp]

/-- The states a `Publish` call with a key and a payload can be in. -/
theorem publish_states (pubSub : SubPub) (request : PublishRequest)
    (sched : List Tick) (hk : request.Key ≠ "") (hd : request.Data ≠ "") :
    ((serve pubSub (Publish request) sched).result = none ∧
      (serve pubSub (Publish request) sched).trace.filter Action.isBrokerCall = [] ∧
      handlerTicks sched = 0) ∨
    (pubSub.Publish request.Key (.str request.Data) = none ∧
      (serve pubSub (Publish request) sched).result = some (.ok {}) ∧
      (serve pubSub (Publish request) sched).trace.filter Action.isBrokerCall
        = [.Publish request.Key (.str request.Data)]) ∨
    (∃ err, pubSub.Publish request.Key (.str request.Data) = some err ∧
      (serve pubSub (Publish request) sched).result = none ∧
      (serve pubSub (Publish request) sched).trace.filter Action.isBrokerCall
        = [.Publish request.Key (.str request.Data)] ∧
      handlerTicks sched = 1) ∨
    (∃ err, pubSub.Publish request.Key (.str request.Data) = some err ∧
      (serve pubSub (Publish request) sched).result
        = some (if errors.Is err .ErrTopicNotFound = true
                then .error (status.Error .NotFound "topic not found")
                else .error (status.Error .Internal "publish error")) ∧
      (serve pubSub (Publish request) sched).trace.filter Action.isBrokerCall
        = [.Publish request.Key (.str request.Data)]) := by
  unfold serve
  rcases run_peel pubSub sched (State.init (Publish request)) rfl with
    ⟨h0, d, hrun⟩ | ⟨d, b, hb, hrun⟩
  · left
    rw [hrun]
    simp [State.init, State.result, Publish, PublishRequest.GetKey, PublishRequest.GetData,
      hk, hd, h0]
  · right
    rw [hrun]
    cases hpub : pubSub.Publish request.Key (.str request.Data) with
    | none =>
      left
      have hs : step pubSub { State.init (Publish request) with done := d } Tick.handler
          = { prog := .ret (.ok {}), cb := none, done := d,
              trace := [.Publish request.Key (.str request.Data)] } := by
        simp [step, State.init, Publish, PublishRequest.GetKey, PublishRequest.GetData,
          hk, hd, hpub]
      rw [hs]
      obtain ⟨hp, ht, _⟩ := run_ret pubSub (Except.ok {} : Except Status emptypb.Empty) b
        { prog := .ret (.ok {}), cb := none, done := d,
          trace := [.Publish request.Key (.str request.Data)] } rfl rfl
      refine ⟨rfl, ?_, ?_⟩
      · simp [State.result, hp]
      · rw [ht]; simp [Action.isBrokerCall]
    | some err =>
      right
      have hs : ∃ r : Except Status emptypb.Empty,
          (r = (if errors.Is err .ErrTopicNotFound = true
                then .error (status.Error .NotFound "topic not found")
                else .error (status.Error .Internal "publish error"))) ∧
          step pubSub { State.init (Publish request) with done := d } Tick.handler
          = { prog := .log .Error "publish error"
                [.String "op" "server.pubSubServer.Publish", .Error err] (.ret r),
              cb := none, done := d,
              trace := [.Publish request.Key (.str request.Data)] } := by
        refine ⟨_, rfl, ?_⟩
        by_cases hi : errors.Is err .ErrTopicNotFound = true <;>
          simp [step, State.init, Publish, PublishRequest.GetKey, PublishRequest.GetData,
            hk, hd, hpub, hi]
      obtain ⟨r, hr, hs⟩ := hs
      rw [hs]
      rcases run_log_ret pubSub .Error "publish error"
        [.String "op" "server.pubSubServer.Publish", .Error err] r b
        { prog := .log .Error "publish error"
            [.String "op" "server.pubSubServer.Publish", .Error err] (.ret r),
          cb := none, done := d,
          trace := [.Publish request.Key (.str request.Data)] } rfl rfl
        with ⟨_, ⟨h0, hp, ht⟩ | ⟨h1, hp, ht⟩⟩
      · left
        refine ⟨err, rfl, ?_, ?_, by omega⟩
        · simp [State.result, hp]
        · rw [ht]; simp [Action.isBrokerCall]
      · right
        refine ⟨err, rfl, ?_, ?_⟩
        · rw [← hr]; simp [State.result, hp]
        · rw [ht]; simp [Action.isBrokerCall]

/-- C2: a publish request with a key and data makes exactly one broker call,
`Publish(key, data)`, and the response follows from what that call returns: `nil`
gives the empty acknowledgement, an error for which `errors.Is(err, ErrTopicNotFound)`
holds gives `NotFound` "topic not found", any other error gives `Internal` "publish
error", a message that does not mention the error of the broker. -/
theorem publish_forwards_to_broker (pubSub : SubPub) (request : PublishRequest)
    (sched : List Tick) (hk : request.Key ≠ "") (hd : request.Data ≠ "") :
    ((serve pubSub (Publish request) sched).trace.filter Action.isBrokerCall = [] ∨
      (serve pubSub (Publish request) sched).trace.filter Action.isBrokerCall
        = [.Publish request.Key (.str request.Data)]) ∧
    ((serve pubSub (Publish request) sched).result ≠ none →
      (serve pubSub (Publish request) sched).trace.filter Action.isBrokerCall
        = [.Publish request.Key (.str request.Data)]) ∧
    (2 ≤ handlerTicks sched → (serve pubSub (Publish request) sched).result ≠ none) ∧
    (pubSub.Publish request.Key (.str request.Data) = none →
      (serve pubSub (Publish request) sched).result = none ∨
      (serve pubSub (Publish request) sched).result = some (.ok {})) ∧
    (∀ err, pubSub.Publish request.Key (.str request.Data) = some err →
      errors.Is err .ErrTopicNotFound = true →
      (serve pubSub (Publish request) sched).result = none ∨
      (serve pubSub (Publish request) sched).result
        = some (.error (status.Error .NotFound "topic not found"))) ∧
    (∀ err, pubSub.Publish request.Key (.str request.Data) = some err →
      errors.Is err .ErrTopicNotFound = false →
      (serve pubSub (Publish request) sched).result = none ∨
      (serve pubSub (Publish request) sched).result
        = some (.error (status.Error .Internal "publish error"))) := by
  rcases publish_states pubSub request sched hk hd with
    ⟨hr, ht, hn⟩ | ⟨hb, hr, ht⟩ | ⟨e, hb, hr, ht, hn⟩ | ⟨e, hb, hr, ht⟩
  · rw [hr, ht]
    refine ⟨Or.inl rfl, fun h => absurd rfl h, fun h => by omega, fun _ => Or.inl rfl,
      fun _ _ _ => Or.inl rfl, fun _ _ _ => Or.inl rfl⟩
  · rw [hr, ht, hb]
    refine ⟨Or.inr rfl, fun _ => rfl, fun _ => by simp, fun _ => Or.inr rfl,
      fun _ h => by simp at h, fun _ h => by simp at h⟩
  · rw [hr, ht, hb]
    refine ⟨Or.inr rfl, fun _ => rfl, fun h => by omega, fun h => by simp at h,
      fun _ _ _ => Or.inl rfl, fun _ _ _ => Or.inl rfl⟩
  · rw [hr, ht, hb]
    refine ⟨Or.inr rfl, fun _ => rfl, fun _ => by simp, fun h => by simp at h, ?_, ?_⟩
    · intro err he hi
      have : e = err := by simpa using he
      subst this
      right; simp [hi]
    · intro err he hi
      have : e = err := by simpa using he
      subst this
      right; simp [hi]

/-- A handler about to log, with no callback registered: it has not run yet, or it has
logged and goes on with the rest of its body. -/
theorem run_log {ρ : Type} (pubSub : SubPub) (l : Level) (m : String) (f : List Field)
    (k : Prog ρ) (sched : List Tick) (s : State ρ) (hcb : s.cb = none)
    (hp : s.prog = .log l m f k) :
    (handlerTicks sched = 0 ∧ ∃ d, run pubSub s sched = { s with done := d }) ∨
    (∃ d b, handlerTicks sched = handlerTicks b + 1 ∧
      run pubSub s sched
        = run pubSub { prog := k, cb := none, done := d, trace := s.trace ++ [.log l m f] } b) := by
  rcases run_peel pubSub sched s hcb with ⟨h0, d, hrun⟩ | ⟨d, b, hb, hrun⟩
  · exact Or.inl ⟨h0, d, hrun⟩
  · have hs : step pubSub { s with done := d } Tick.handler
        = { prog := k, cb := none, done := d, trace := s.trace ++ [.log l m f] } := by
      simp [step, hp, hcb]
    rw [hs] at hrun
    exact Or.inr ⟨d, b, hb, hrun⟩

/-- The states a `Subscribe` call without a key can be in. -/
theorem subscribe_empty_key_states (pubSub : SubPub) (request : SubscribeRequest)
    (sched : List Tick) (hk : request.Key = "") :
    (serve pubSub (Subscribe request) sched).cb = none ∧
    (((serve pubSub (Subscribe request) sched).result = none ∧
        handlerTicks sched ≤ 1 ∧
        ∀ a ∈ (serve pubSub (Subscribe request) sched).trace,
          a = .log .Debug "subscribe request"
            [.String "op" "server.pubSubServer.Subscribe", .Any "request" (.request request)]) ∨
     ((serve pubSub (Subscribe request) sched).result
        = some (some (status.Error .InvalidArgument "key is required")) ∧
      (serve pubSub (Subscribe request) sched).trace
        = [.log .Debug "subscribe request"
            [.String "op" "server.pubSubServer.Subscribe", .Any "request" (.request request)],
           .log .Warn "request for subscribe without key"
            [.String "op" "server.pubSubServer.Subscribe"]])) := by
  have hP : Subscribe request = .log .Debug "subscribe request"
      [.String "op" "server.pubSubServer.Subscribe", .Any "request" (.request request)]
      (.log .Warn "request for subscribe without key"
        [.String "op" "server.pubSubServer.Subscribe"]
        (.ret (some (status.Error .InvalidArgument "key is required")))) := by
    simp [Subscribe, SubscribeRequest.GetKey, hk]
  unfold serve
  rcases run_log pubSub _ _ _ _ sched (State.init (Subscribe request)) rfl hP with
    ⟨h0, d, hrun⟩ | ⟨d, b, hb, hrun⟩
  · rw [hrun]
    refine ⟨rfl, Or.inl ⟨?_, by omega, ?_⟩⟩
    · simp [State.result, State.init, hP]
    · simp [State.init]
  · rw [hrun]
    rcases run_log_ret pubSub .Warn "request for subscribe without key"
      [.String "op" "server.pubSubServer.Subscribe"]
      (some (status.Error .InvalidArgument "key is required")) b
      { prog := .log .Warn "request for subscribe without key"
          [.String "op" "server.pubSubServer.Subscribe"]
          (.ret (some (status.Error .InvalidArgument "key is required"))),
        cb := none, done := d,
        trace := (State.init (Subscribe request)).trace ++ [.log .Debug "subscribe request"
          [.String "op" "server.pubSubServer.Subscribe", .Any "request" (.request request)]] }
      rfl rfl with ⟨hc, ⟨h0, hp, ht⟩ | ⟨h1, hp, ht⟩⟩
    · refine ⟨hc, Or.inl ⟨?_, by omega, ?_⟩⟩
      · simp [State.result, hp]
      · rw [ht]; simp [State.init]
    · refine ⟨hc, Or.inr ⟨?_, ?_⟩⟩
      · simp [State.result, hp]
      · rw [ht]; simp [State.init]

/-- C3: a subscribe request with an empty key is answered with `InvalidArgument` "key
is required" after the two log calls, whether or not the stream is ever cancelled; on
every schedule the broker's `Subscribe` is not called, no callback is registered, the
handler never receives from the context and nothing is sent on the stream. -/
theorem subscribe_rejects_empty_key (pubSub : SubPub) (request : SubscribeRequest)
    (sched : List Tick) (hk : request.Key = "") :
    (∀ key, Action.Subscribe key ∉ (serve pubSub (Subscribe request) sched).trace) ∧
    (serve pubSub (Subscribe request) sched).cb = none ∧
    Action.ctxDone ∉ (serve pubSub (Subscribe request) sched).trace ∧
    (∀ ev, Action.Send ev ∉ (serve pubSub (Subscribe request) sched).trace) ∧
    ((serve pubSub (Subscribe request) sched).result = none ∨
      (serve pubSub (Subscribe request) sched).result
        = some (some (status.Error .InvalidArgument "key is required"))) ∧
    (2 ≤ handlerTicks sched →
      (serve pubSub (Subscribe request) sched).result
        = some (some (status.Error .InvalidArgument "key is required"))) := by
  obtain ⟨hcb, ⟨hr, hn, ht⟩ | ⟨hr, ht⟩⟩ := subscribe_empty_key_states pubSub request sched hk
  · refine ⟨?_, hcb, ?_, ?_, Or.inl hr, fun h => by omega⟩
    · intro key hmem; have := ht _ hmem; simp at this
    · intro hmem; have := ht _ hmem; simp at this
    · intro ev hmem; have := ht _ hmem; simp at this
  · rw [ht, hr]
    refine ⟨?_, hcb, ?_, ?_, Or.inr rfl, fun _ => rfl⟩
    · intro key; simp
    · simp
    · intro ev; simp

/-- The body of `Subscribe` for a request with a key, statement by statement. -/
theorem subscribe_body (request : SubscribeRequest) (hk : request.Key ≠ "") :
    ∃ K : Except GoError Subscription → Prog (Option Status),
      Subscribe request = .log .Debug "subscribe request"
        [.String "op" "server.pubSubServer.Subscribe", .Any "request" (.request request)]
        (.Subscribe request.Key (Subscribe.callback request.Key) K) ∧
      (∀ err, K (.error err) = .log .Error "subscribe error"
        [.String "op" "server.pubSubServer.Subscribe", .Error err]
        (.ret (some (status.Error .Internal "subscribe error")))) ∧
      (∀ sub, K (.ok sub) = .ctxDone (.log .Debug "stream closed, unsubscribing"
        [.String "op" "server.pubSubServer.Subscribe", .String "key" request.Key]
        (.Unsubscribe sub (.ret none)))) := by
  refine ⟨fun r =>
    match r with
    | .error err => .log .Error "subscribe error"
        [.String "op" "server.pubSubServer.Subscribe", .Error err]
        (.ret (some (status.Error .Internal "subscribe error")))
    | .ok sub => .ctxDone (.log .Debug "stream closed, unsubscribing"
        [.String "op" "server.pubSubServer.Subscribe", .String "key" request.Key]
        (.Unsubscribe sub (.ret none))), ?_, ?_, ?_⟩
  · simp only [Subscribe, SubscribeRequest.GetKey, if_neg hk]
  · intro err; rfl
  · intro sub; rfl

/-- The states a `Subscribe` call can be in when the broker refuses the subscription. -/
theorem subscribe_refused_states (pubSub : SubPub) (request : SubscribeRequest)
    (err : GoError) (sched : List Tick) (hk : request.Key ≠ "")
    (hs : pubSub.Subscribe request.Key = .error err) :
    (serve pubSub (Subscribe request) sched).cb = none ∧
    (((serve pubSub (Subscribe request) sched).result = none ∧
        handlerTicks sched ≤ 2 ∧
        ∀ a ∈ (serve pubSub (Subscribe request) sched).trace,
          a = .log .Debug "subscribe request"
            [.String "op" "server.pubSubServer.Subscribe", .Any "request" (.request request)] ∨
          a = .Subscribe request.Key) ∨
     ((serve pubSub (Subscribe request) sched).result
        = some (some (status.Error .Internal "subscribe error")) ∧
      (serve pubSub (Subscribe request) sched).trace
        = [.log .Debug "subscribe request"
            [.String "op" "server.pubSubServer.Subscribe", .Any "request" (.request request)],
           .Subscribe request.Key,
           .log .Error "subscribe error"
            [.String "op" "server.pubSubServer.Subscribe", .Error err]])) := by
  obtain ⟨K, hP, hKe, _⟩ := subscribe_body request hk
  unfold serve
  rcases run_log pubSub _ _ _ _ sched (State.init (Subscribe request)) rfl hP with
    ⟨h0, d, hrun⟩ | ⟨d, b, hb, hrun⟩
  · rw [hrun]
    refine ⟨rfl, Or.inl ⟨?_, by omega, ?_⟩⟩
    · simp [State.result, State.init, hP]
    · simp [State.init]
  · rw [hrun]
    rcases run_peel pubSub b
      ({ prog := .Subscribe request.Key (Subscribe.callback request.Key) K, cb := none,
         done := d,
         trace := (State.init (Subscribe request)).trace ++ [.log .Debug "subscribe request"
           [.String "op" "server.pubSubServer.Subscribe",
            .Any "request" (.request request)]] } : State (Option Status)) rfl
      with ⟨h0, d2, hrun2⟩ | ⟨d2, b2, hb2, hrun2⟩
    · rw [hrun2]
      refine ⟨rfl, Or.inl ⟨?_, by omega, ?_⟩⟩
      · simp [State.result]
      · simp [State.init]
    · rw [hrun2]
      have hstep : step pubSub
          { ({ prog := .Subscribe request.Key (Subscribe.callback request.Key) K, cb := none,
               done := d,
               trace := (State.init (Subscribe request)).trace ++ [.log .Debug "subscribe request"
                 [.String "op" "server.pubSubServer.Subscribe",
                  .Any "request" (.request request)]] } : State (Option Status))
            with done := d2 } Tick.handler
          = { prog := .log .Error "subscribe error"
                [.String "op" "server.pubSubServer.Subscribe", .Error err]
                (.ret (some (status.Error .Internal "subscribe error"))),
              cb := none, done := d2,
              trace := [.log .Debug "subscribe request"
                  [.String "op" "server.pubSubServer.Subscribe",
                   .Any "request" (.request request)],
                .Subscribe request.Key] } := by
        simp [step, hs, hKe, State.init]
      rw [hstep]
      rcases run_log_ret pubSub .Error "subscribe error"
        [.String "op" "server.pubSubServer.Subscribe", .Error err]
        (some (status.Error .Internal "subscribe error")) b2
        { prog := .log .Error "subscribe error"
            [.String "op" "server.pubSubServer.Subscribe", .Error err]
            (.ret (some (status.Error .Internal "subscribe error"))),
          cb := none, done := d2,
          trace := [.log .Debug "subscribe request"
              [.String "op" "server.pubSubServer.Subscribe",
               .Any "request" (.request request)],
            .Subscribe request.Key] } rfl rfl
        with ⟨hc, ⟨h0, hp, ht⟩ | ⟨h1, hp, ht⟩⟩
      · refine ⟨hc, Or.inl ⟨?_, by omega, ?_⟩⟩
        · simp [State.result, hp]
        · rw [ht]; simp
      · refine ⟨hc, Or.inr ⟨?_, ?_⟩⟩
        · simp [State.result, hp]
        · rw [ht]; simp

/-- C6: when the key is not empty and the broker's `Subscribe` returns an error, the
handler returns `Internal` "subscribe error", the same status for every broker error,
within three steps and on every schedule, cancelled or not; it never receives from the
context and never calls `Unsubscribe`. -/
theorem subscribe_broker_error (pubSub : SubPub) (request : SubscribeRequest)
    (err : GoError) (sched : List Tick) (hk : request.Key ≠ "")
    (hs : pubSub.Subscribe request.Key = .error err) :
    (∀ sub, Action.Unsubscribe sub ∉ (serve pubSub (Subscribe request) sched).trace) ∧
    Action.ctxDone ∉ (serve pubSub (Subscribe request) sched).trace ∧
    (serve pubSub (Subscribe request) sched).cb = none ∧
    ((serve pubSub (Subscribe request) sched).result = none ∨
      (serve pubSub (Subscribe request) sched).result
        = some (some (status.Error .Internal "subscribe error"))) ∧
    (3 ≤ handlerTicks sched →
      (serve pubSub (Subscribe request) sched).result
        = some (some (status.Error .Internal "subscribe error"))) := by
  obtain ⟨hcb, ⟨hr, hn, ht⟩ | ⟨hr, ht⟩⟩ :=
    subscribe_refused_states pubSub request err sched hk hs
  · refine ⟨?_, ?_, hcb, Or.inl hr, fun h => by omega⟩
    · intro sub hmem; have := ht _ hmem; simp at this
    · intro hmem; have := ht _ hmem; simp at this
  · rw [ht, hr]
    refine ⟨?_, ?_, hcb, Or.inr rfl, fun _ => rfl⟩
    · intro sub; simp
    · simp

/-- What the callback does for each payload and each answer of the stream. -/
theorem runCb_callback (key : String) (send : Event → Option GoError) (msg : GoAny) :
    runCb send (Subscribe.callback key msg) =
      match msg with
      | .str strMsg =>
        match send { Data := strMsg } with
        | some err =>
          ([.log .Debug "message received"
              [.String "op" "server.pubSubServer.Subscribe", .Any "msg" (.str strMsg)],
            .Send { Data := strMsg },
            .log .Error "send message error"
              [.String "op" "server.pubSubServer.Subscribe", .Error err]], true)
        | none =>
          ([.log .Debug "message received"
              [.String "op" "server.pubSubServer.Subscribe", .Any "msg" (.str strMsg)],
            .Send { Data := strMsg }], true)
      | other =>
          ([.log .Debug "message received"
              [.String "op" "server.pubSubServer.Subscribe", .Any "msg" other],
            .log .Error "message is not string"
              [.String "op" "server.pubSubServer.Subscribe", .Any "msg" other,
               .String "key" key]], true) := by
  cases msg with
  | str strMsg =>
    cases h : send { Data := strMsg } <;> simp [Subscribe.callback, runCb, h]
  | int n => simp [Subscribe.callback, runCb]
  | bytes b => simp [Subscribe.callback, runCb]
  | request r => simp [Subscribe.callback, runCb]
  | nil => simp [Subscribe.callback, runCb]

/-- The callback never calls `Unsubscribe`. -/
theorem runCb_callback_no_unsubscribe (key : String) (send : Event → Option GoError)
    (msg : GoAny) :
    (runCb send (Subscribe.callback key msg)).1.filter Action.isUnsubscribe = [] := by
  rw [runCb_callback]
  cases msg with
  | str strMsg =>
    cases h : send { Data := strMsg } <;> simp [h, Action.isUnsubscribe]
  | int n => simp [Action.isUnsubscribe]
  | bytes b => simp [Action.isUnsubscribe]
  | request r => simp [Action.isUnsubscribe]
  | nil => simp [Action.isUnsubscribe]

/-- One step of an accepted `Subscribe` call leads from a control point to the same or
a later one; a handler step taken after the cancellation leads to the next one. -/
theorem subscribeAt_step (pubSub : SubPub) (request : SubscribeRequest)
    (K : Except GoError Subscription → Prog (Option Status)) (sub : Subscription)
    (hs : pubSub.Subscribe request.Key = .ok sub)
    (hP : Subscribe request = .log .Debug "subscribe request"
        [.String "op" "server.pubSubServer.Subscribe", .Any "request" (.request request)]
        (.Subscribe request.Key (Subscribe.callback request.Key) K))
    (hK : K (.ok sub) = .ctxDone (.log .Debug "stream closed, unsubscribing"
        [.String "op" "server.pubSubServer.Subscribe", .String "key" request.Key]
        (.Unsubscribe sub (.ret none))))
    (pc : SubscribePc) (s : State (Option Status)) (t : Tick)
    (h : SubscribeAt request K sub pc s) :
    ∃ pc2, SubscribeAt request K sub pc2 (step pubSub s t) ∧ pc.rank ≤ pc2.rank ∧
      (t = Tick.handler → s.done = true → min (pc.rank + 1) 5 ≤ pc2.rank) := by
  cases t with
  | cancel =>
    refine ⟨pc, ?_, le_refl _, fun h => by cases h⟩
    cases pc <;> simp_all [SubscribeAt, step]
  | deliver msg sr =>
    refine ⟨pc, ?_, le_refl _, fun h => by cases h⟩
    cases pc <;> simp only [SubscribeAt] at h ⊢
    · obtain ⟨hp, hc, ht⟩ := h; simp [step, hc, hp, ht]
    · obtain ⟨hp, hc, ht⟩ := h; simp [step, hc, hp, ht]
    · obtain ⟨hp, hc, ht⟩ := h
      simp [step, hc, hp, ht, runCb_callback_no_unsubscribe]
    · obtain ⟨hp, hd, hc, ht⟩ := h
      simp [step, hc, hp, hd, ht, runCb_callback_no_unsubscribe]
    · obtain ⟨hp, hd, hc, ht⟩ := h
      simp [step, hc, hp, hd, ht, runCb_callback_no_unsubscribe]
    · obtain ⟨hp, hd, hc, ht⟩ := h
      simp [step, hc, hp, hd, ht, runCb_callback_no_unsubscribe]
  | handler =>
    cases pc <;> simp only [SubscribeAt] at h
    · obtain ⟨hp, hc, ht⟩ := h
      refine ⟨.registering, ?_, by simp [SubscribePc.rank], fun _ _ => by simp [SubscribePc.rank]⟩
      simp [SubscribeAt, step, hp, hP, hc, ht, Action.isUnsubscribe]
    · obtain ⟨hp, hc, ht⟩ := h
      refine ⟨.waiting, ?_, by simp [SubscribePc.rank], fun _ _ => by simp [SubscribePc.rank]⟩
      simp [SubscribeAt, step, hp, hs, ht, Action.isUnsubscribe]
    · obtain ⟨hp, hc, ht⟩ := h
      by_cases hd : s.done = true
      · refine ⟨.woken, ?_, by simp [SubscribePc.rank], fun _ _ => by simp [SubscribePc.rank]⟩
        simp [SubscribeAt, step, hp, hK, hd, hc, ht, Action.isUnsubscribe]
      · refine ⟨.waiting, ?_, le_refl _, fun _ h => absurd h hd⟩
        simp [SubscribeAt, step, hp, hK, hd, hc, ht]
    · obtain ⟨hp, hd, hc, ht⟩ := h
      refine ⟨.unsubscribing, ?_, by simp [SubscribePc.rank], fun _ _ => by simp [SubscribePc.rank]⟩
      simp [SubscribeAt, step, hp, hd, hc, ht, Action.isUnsubscribe]
    · obtain ⟨hp, hd, hc, ht⟩ := h
      refine ⟨.returned, ?_, by simp [SubscribePc.rank], fun _ _ => by simp [SubscribePc.rank]⟩
      simp [SubscribeAt, step, hp, hd, hc, ht, Action.isUnsubscribe]
    · obtain ⟨hp, hd, hc, ht⟩ := h
      refine ⟨.returned, ?_, by simp [SubscribePc.rank], fun _ _ => by simp [SubscribePc.rank]⟩
      simp [SubscribeAt, step, hp, hd, hc, ht]

/-- Only a cancellation changes the cancellation flag. -/
theorem step_done {ρ : Type} (pubSub : SubPub) (s : State ρ) (t : Tick)
    (ht : t ≠ Tick.cancel) : (step pubSub s t).done = s.done := by
  cases t with
  | cancel => exact absurd rfl ht
  | deliver msg sr =>
    cases hc : s.cb <;> simp [step, hc]
  | handler =>
    cases hp : s.prog with
    | ret r => simp [step, hp]
    | log l m f k => simp [step, hp]
    | Publish key msg k => simp [step, hp]
    | Subscribe key cb k =>
      cases hsub : pubSub.Subscribe key <;> simp [step, hp, hsub]
    | Unsubscribe sub k => simp [step, hp]
    | ctxDone k =>
      by_cases hd : s.done = true <;> simp [step, hp, hd]

/-- A schedule without a cancellation leaves the cancellation flag as it was. -/
theorem run_done_of_no_cancel {ρ : Type} (pubSub : SubPub) (sched : List Tick) :
    ∀ s : State ρ, Tick.cancel ∉ sched → (run pubSub s sched).done = s.done := by
  induction sched with
  | nil => intro s _; rfl
  | cons t ts ih =>
    intro s hmem
    rw [run_cons, ih _ (fun h => hmem (List.mem_cons_of_mem _ h))]
    exact step_done pubSub s t (fun h => hmem (by simp [h]))

/-- An accepted `Subscribe` call stays within its control points. -/
theorem subscribeAt_run (pubSub : SubPub) (request : SubscribeRequest)
    (K : Except GoError Subscription → Prog (Option Status)) (sub : Subscription)
    (hs : pubSub.Subscribe request.Key = .ok sub)
    (hP : Subscribe request = .log .Debug "subscribe request"
        [.String "op" "server.pubSubServer.Subscribe", .Any "request" (.request request)]
        (.Subscribe request.Key (Subscribe.callback request.Key) K))
    (hK : K (.ok sub) = .ctxDone (.log .Debug "stream closed, unsubscribing"
        [.String "op" "server.pubSubServer.Subscribe", .String "key" request.Key]
        (.Unsubscribe sub (.ret none))))
    (sched : List Tick) :
    ∀ (s : State (Option Status)) (pc : SubscribePc), SubscribeAt request K sub pc s →
      ∃ pc2, SubscribeAt request K sub pc2 (run pubSub s sched) := by
  induction sched with
  | nil => intro s pc h; exact ⟨pc, h⟩
  | cons t ts ih =>
    intro s pc h
    obtain ⟨pc1, h1, _, _⟩ := subscribeAt_step pubSub request K sub hs hP hK pc s t h
    exact ih _ pc1 h1

/-- Once the context is cancelled, each handler step of an accepted `Subscribe` call
moves it to its next control point, until it has returned. -/
theorem subscribeAt_progress (pubSub : SubPub) (request : SubscribeRequest)
    (K : Except GoError Subscription → Prog (Option Status)) (sub : Subscription)
    (hs : pubSub.Subscribe request.Key = .ok sub)
    (hP : Subscribe request = .log .Debug "subscribe request"
        [.String "op" "server.pubSubServer.Subscribe", .Any "request" (.request request)]
        (.Subscribe request.Key (Subscribe.callback request.Key) K))
    (hK : K (.ok sub) = .ctxDone (.log .Debug "stream closed, unsubscribing"
        [.String "op" "server.pubSubServer.Subscribe", .String "key" request.Key]
        (.Unsubscribe sub (.ret none))))
    (sched : List Tick) (s : State (Option Status)) (pc : SubscribePc)
    (h : SubscribeAt request K sub pc s) (hd : s.done = true) :
    ∃ pc2, SubscribeAt request K sub pc2 (run pubSub s sched) ∧
      min (handlerTicks sched) 5 ≤ pc2.rank := by
  have key := run_induction pubSub
    (fun n s => s.done = true ∧ ∃ pc, SubscribeAt request K sub pc s ∧ min n 5 ≤ pc.rank)
    (by
      rintro n s ⟨hd, pc, hat, hn⟩
      obtain ⟨pc2, h2, _, hpr⟩ :=
        subscribeAt_step pubSub request K sub hs hP hK pc s Tick.handler hat
      refine ⟨?_, pc2, h2, ?_⟩
      · rw [step_done pubSub s Tick.handler (by simp)]; exact hd
      · have := hpr rfl hd
        omega)
    (by
      rintro n s t ht ⟨hd, pc, hat, hn⟩
      obtain ⟨pc2, h2, hle, _⟩ := subscribeAt_step pubSub request K sub hs hP hK pc s t hat
      refine ⟨?_, pc2, h2, by omega⟩
      cases t with
      | handler => exact absurd rfl ht
      | cancel => rfl
      | deliver msg sr => rw [step_done pubSub s _ (by simp)]; exact hd)
    sched 0 s ⟨hd, pc, h, by simp⟩
  obtain ⟨_, pc2, h2, hn⟩ := key
  exact ⟨pc2, h2, by simpa using hn⟩

/-- What a control point says about the result, the `Unsubscribe` calls and the
registered callback. -/
theorem subscribeAt_facts (request : SubscribeRequest)
    (K : Except GoError Subscription → Prog (Option Status)) (sub : Subscription)
    (hK : K (.ok sub) = .ctxDone (.log .Debug "stream closed, unsubscribing"
        [.String "op" "server.pubSubServer.Subscribe", .String "key" request.Key]
        (.Unsubscribe sub (.ret none))))
    (hP : Subscribe request = .log .Debug "subscribe request"
        [.String "op" "server.pubSubServer.Subscribe", .Any "request" (.request request)]
        (.Subscribe request.Key (Subscribe.callback request.Key) K))
    (pc : SubscribePc) (s : State (Option Status)) (h : SubscribeAt request K sub pc s) :
    (s.done = false → pc.rank ≤ 2) ∧
    (pc.rank ≤ 4 → s.result = none ∧ s.trace.filter Action.isUnsubscribe = []) ∧
    (pc.rank = 5 → s.result = some none ∧
      s.trace.filter Action.isUnsubscribe = [.Unsubscribe sub]) ∧
    pc.rank ≤ 5 ∧
    (s.cb = none ∨ s.cb = some (Subscribe.callback request.Key)) := by
  cases pc <;> simp only [SubscribeAt] at h
  · obtain ⟨hp, hc, ht⟩ := h
    simp [SubscribePc.rank, State.result, hp, hP, hc, ht]
  · obtain ⟨hp, hc, ht⟩ := h
    simp [SubscribePc.rank, State.result, hp, hc, ht]
  · obtain ⟨hp, hc, ht⟩ := h
    simp [SubscribePc.rank, State.result, hp, hK, hc, ht]
  · obtain ⟨hp, hd, hc, ht⟩ := h
    simp [SubscribePc.rank, State.result, hp, hd, hc, ht]
  · obtain ⟨hp, hd, hc, ht⟩ := h
    simp [SubscribePc.rank, State.result, hp, hd, hc, ht]
  · obtain ⟨hp, hd, hc, ht⟩ := h
    simp [SubscribePc.rank, State.result, hp, hd, hc, ht]

/-- C4: when the key is not empty and the broker accepts the subscription, then on
every schedule of deliveries (with sends that succeed or fail), handler steps and
cancellation: as long as the context is not cancelled the handler has not returned and
has not called `Unsubscribe`; it only ever returns `nil`; `Unsubscribe` is called on
the returned subscription, once, exactly when the handler returns; and once the
context is cancelled five handler steps are enough for it to return. -/
theorem subscribe_waits_then_unsubscribes (pubSub : SubPub) (request : SubscribeRequest)
    (sub : Subscription) (sched : List Tick) (hk : request.Key ≠ "")
    (hs : pubSub.Subscribe request.Key = .ok sub) :
    (Tick.cancel ∉ sched →
      (serve pubSub (Subscribe request) sched).result = none ∧
      (serve pubSub (Subscribe request) sched).trace.filter Action.isUnsubscribe = []) ∧
    ((serve pubSub (Subscribe request) sched).result = none ∨
      (serve pubSub (Subscribe request) sched).result = some none) ∧
    ((serve pubSub (Subscribe request) sched).result = none →
      (serve pubSub (Subscribe request) sched).trace.filter Action.isUnsubscribe = []) ∧
    ((serve pubSub (Subscribe request) sched).result = some none →
      (serve pubSub (Subscribe request) sched).trace.filter Action.isUnsubscribe
        = [.Unsubscribe sub]) ∧
    (∀ before after, sched = before ++ Tick.cancel :: after → 5 ≤ handlerTicks after →
      (serve pubSub (Subscribe request) sched).result = some none) := by
  obtain ⟨K, hP, _, hKo⟩ := subscribe_body request hk
  have hK := hKo sub
  have h0 : SubscribeAt request K sub .entry (State.init (Subscribe request)) := by
    simp [SubscribeAt, State.init]
  obtain ⟨pc, hat⟩ := subscribeAt_run pubSub request K sub hs hP hK sched _ _ h0
  obtain ⟨f1, f2, f3, f4, _⟩ := subscribeAt_facts request K sub hK hP pc _ hat
  have hcase : pc.rank ≤ 4 ∨ pc.rank = 5 := by omega
  unfold serve
  refine ⟨?_, ?_, ?_, ?_, ?_⟩
  · intro hnc
    have hd : (run pubSub (State.init (Subscribe request)) sched).done = false := by
      rw [run_done_of_no_cancel pubSub sched _ hnc]; rfl
    exact f2 (by have := f1 hd; omega)
  · rcases hcase with h | h
    · exact Or.inl (f2 h).1
    · exact Or.inr (f3 h).1
  · intro hr
    rcases hcase with h | h
    · exact (f2 h).2
    · rw [(f3 h).1] at hr; cases hr
  · intro hr
    rcases hcase with h | h
    · rw [(f2 h).1] at hr; cases hr
    · exact (f3 h).2
  · intro before after hsched hn
    subst hsched
    rw [run_append, run_cons]
    obtain ⟨pc1, hat1⟩ := subscribeAt_run pubSub request K sub hs hP hK before _ _ h0
    obtain ⟨pc2, hat2, _, _⟩ :=
      subscribeAt_step pubSub request K sub hs hP hK pc1 _ Tick.cancel hat1
    obtain ⟨pc3, hat3, hrank⟩ :=
      subscribeAt_progress pubSub request K sub hs hP hK after _ pc2 hat2 rfl
    obtain ⟨_, _, g3, g4, _⟩ := subscribeAt_facts request K sub hK hP pc3 _ hat3
    exact (g3 (by omega)).1

/-- C5: the callback `Subscribe` registers sends exactly one event, with `Data` equal
to the payload, when the payload is a string, and sends nothing otherwise; it returns
normally in both cases, whatever the stream answers to the send, and never calls
`Unsubscribe`.  The callback the broker holds during a `Subscribe` call is this one,
and a delivery leaves the handler where it is: same remaining body, same result, same
cancellation flag, no `Unsubscribe` added. -/
theorem subscribe_callback_delivery (pubSub : SubPub) (request : SubscribeRequest)
    (sched : List Tick) (msg : GoAny) (sendResult : Option GoError) :
    (∀ key send strMsg,
      (runCb send (Subscribe.callback key (.str strMsg))).1.filter Action.isSend
        = [.Send { Data := strMsg }] ∧
      (runCb send (Subscribe.callback key (.str strMsg))).2 = true) ∧
    (∀ key send other, (∀ strMsg, other ≠ GoAny.str strMsg) →
      (runCb send (Subscribe.callback key other)).1.filter Action.isSend = [] ∧
      (runCb send (Subscribe.callback key other)).2 = true) ∧
    (∀ key send other,
      (runCb send (Subscribe.callback key other)).1.filter Action.isUnsubscribe = []) ∧
    ((serve pubSub (Subscribe request) sched).cb = none ∨
      (serve pubSub (Subscribe request) sched).cb = some (Subscribe.callback request.Key)) ∧
    (step pubSub (serve pubSub (Subscribe request) sched) (.deliver msg sendResult)).prog
      = (serve pubSub (Subscribe request) sched).prog ∧
    (step pubSub (serve pubSub (Subscribe request) sched) (.deliver msg sendResult)).result
      = (serve pubSub (Subscribe request) sched).result ∧
    (step pubSub (serve pubSub (Subscribe request) sched) (.deliver msg sendResult)).done
      = (serve pubSub (Subscribe request) sched).done ∧
    (step pubSub (serve pubSub (Subscribe request) sched)
        (.deliver msg sendResult)).trace.filter Action.isUnsubscribe
      = (serve pubSub (Subscribe request) sched).trace.filter Action.isUnsubscribe ∧
    ((serve pubSub (Subscribe request) sched).cb ≠ none →
      (step pubSub (serve pubSub (Subscribe request) sched) (.deliver msg sendResult)).trace
        = (serve pubSub (Subscribe request) sched).trace
          ++ (runCb (fun _ => sendResult) (Subscribe.callback request.Key msg)).1) := by
  have hcb : (serve pubSub (Subscribe request) sched).cb = none ∨
      (serve pubSub (Subscribe request) sched).cb
        = some (Subscribe.callback request.Key) := by
    by_cases hk : request.Key = ""
    · exact Or.inl (subscribe_empty_key_states pubSub request sched hk).1
    · cases hs : pubSub.Subscribe request.Key with
      | error err => exact Or.inl (subscribe_refused_states pubSub request err sched hk hs).1
      | ok sub =>
        obtain ⟨K, hP, _, hKo⟩ := subscribe_body request hk
        have h0 : SubscribeAt request K sub .entry (State.init (Subscribe request)) := by
          simp [SubscribeAt, State.init]
        obtain ⟨pc, hat⟩ := subscribeAt_run pubSub request K sub hs hP (hKo sub) sched _ _ h0
        exact (subscribeAt_facts request K sub (hKo sub) hP pc _ hat).2.2.2.2
  refine ⟨?_, ?_, ?_, hcb, ?_, ?_, ?_, ?_, ?_⟩
  · intro key send strMsg
    rw [runCb_callback]
    cases h : send { Data := strMsg } <;> simp [h, Action.isSend]
  · intro key send other hne
    rw [runCb_callback]
    cases other with
    | str strMsg => exact absurd rfl (hne strMsg)
    | int n => simp [Action.isSend]
    | bytes b => simp [Action.isSend]
    | request r => simp [Action.isSend]
    | nil => simp [Action.isSend]
  · intro key send other
    exact runCb_callback_no_unsubscribe key send other
  · rcases hcb with h | h <;> simp [step, h]
  · rcases hcb with h | h <;> simp [step, h, State.result]
  · rcases hcb with h | h <;> simp [step, h]
  · rcases hcb with h | h <;> simp [step, h, runCb_callback_no_unsubscribe]
  · intro hne
    rcases hcb with h | h
    · exact absurd h hne
    · simp [step, h]


/-! ## Gateway: the theorems at concrete requests -/

/-- C1 at a concrete input: `Publish("", "x")` run for one handler step returns `InvalidArgument`
"key is required". -/
theorem publish_rejects_empty_key_or_data_witness :
    (({ Key := "", Data := "x" } : PublishRequest).Key = "" ∨
      ({ Key := "", Data := "x" } : PublishRequest).Data = "") ∧
    (serve okBroker (Publish { Key := "", Data := "x" }) [Tick.handler]).result
      = some (.error (status.Error .InvalidArgument "key is required")) :=
  ⟨Or.inl rfl,
   (publish_rejects_empty_key_or_data okBroker { Key := "", Data := "x" } [Tick.handler]
      (Or.inl rfl)).2.2 (by decide)⟩

/-- C2 at a concrete input: with a broker that reports a wrapped `ErrTopicNotFound`,
`Publish("orders", "item-1")` returns `NotFound` after its two steps. -/
theorem publish_forwards_to_broker_witness :
    ({ Key := "orders", Data := "item-1" } : PublishRequest).Key ≠ "" ∧
    ({ Key := "orders", Data := "item-1" } : PublishRequest).Data ≠ "" ∧
    (serve failingBroker (Publish { Key := "orders", Data := "item-1" })
        [Tick.handler, Tick.handler]).result
      = some (.error (status.Error .NotFound "topic not found")) := by
  have h := publish_forwards_to_broker failingBroker { Key := "orders", Data := "item-1" }
    [Tick.handler, Tick.handler] (by decide) (by decide)
  refine ⟨by decide, by decide, ?_⟩
  rcases h.2.2.2.2.1 (.wrap "publish" .ErrTopicNotFound) rfl (by decide) with hn | hr
  · exact absurd hn (h.2.2.1 (by decide))
  · exact hr

/-- C3 at a concrete input: `Subscribe("")` returns `InvalidArgument` after its two log calls. -/
theorem subscribe_rejects_empty_key_witness :
    ({ Key := "" } : SubscribeRequest).Key = "" ∧
    (serve okBroker (Subscribe { Key := "" }) [Tick.handler, Tick.handler]).result
      = some (some (status.Error .InvalidArgument "key is required")) :=
  ⟨rfl, (subscribe_rejects_empty_key okBroker { Key := "" } [Tick.handler, Tick.handler]
      rfl).2.2.2.2.2 (by decide)⟩

/-- C6 at a concrete input: with a broker that refuses subscriptions, `Subscribe("orders")`
returns `Internal` "subscribe error" after three steps. -/
theorem subscribe_broker_error_witness :
    ({ Key := "orders" } : SubscribeRequest).Key ≠ "" ∧
    failingBroker.Subscribe "orders" = .error (.errorf "broker closed") ∧
    (serve failingBroker (Subscribe { Key := "orders" })
        [Tick.handler, Tick.handler, Tick.handler]).result
      = some (some (status.Error .Internal "subscribe error")) :=
  ⟨by decide, rfl,
   (subscribe_broker_error failingBroker { Key := "orders" } (.errorf "broker closed")
      [Tick.handler, Tick.handler, Tick.handler] (by decide) rfl).2.2.2.2 (by decide)⟩

/-- C4 at a concrete input: a subscriber of "orders" that receives one message, fails to be
sent a second one, and is then cancelled, returns `nil` after one `Unsubscribe`. -/
theorem subscribe_waits_then_unsubscribes_witness :
    ({ Key := "orders" } : SubscribeRequest).Key ≠ "" ∧
    okBroker.Subscribe "orders" = .ok { id := 7 } ∧
    (serve okBroker (Subscribe { Key := "orders" }) sampleSchedule).result = some none ∧
    (serve okBroker (Subscribe { Key := "orders" }) sampleSchedule).trace.filter
        Action.isUnsubscribe = [.Unsubscribe { id := 7 }] := by
  have h := subscribe_waits_then_unsubscribes okBroker { Key := "orders" } { id := 7 }
    sampleSchedule (by decide) rfl
  have hr := h.2.2.2.2
    [Tick.handler, Tick.handler, Tick.deliver (.str "item-1") none,
     Tick.deliver (.str "item-2") (some (.errorf "transport is closing"))]
    [Tick.handler, Tick.handler, Tick.handler, Tick.handler, Tick.handler] rfl (by decide)
  exact ⟨by decide, rfl, hr, h.2.2.2.1 hr⟩

/-- C5 at a concrete delivery: a subscriber of "orders" has registered; the broker
delivers "item-1" and the send fails; the callback logs, sends the one event, logs the
failure, and the handler is still blocked with no result. -/
theorem subscribe_callback_delivery_witness :
    (serve okBroker (Subscribe { Key := "orders" }) [Tick.handler, Tick.handler]).cb ≠ none ∧
    (step okBroker (serve okBroker (Subscribe { Key := "orders" }) [Tick.handler, Tick.handler])
        (Tick.deliver (.str "item-1") (some (.errorf "transport is closing")))).trace
      = (serve okBroker (Subscribe { Key := "orders" }) [Tick.handler, Tick.handler]).trace ++
        [.log .Debug "message received"
            [.String "op" "server.pubSubServer.Subscribe", .Any "msg" (.str "item-1")],
         .Send { Data := "item-1" },
         .log .Error "send message error"
            [.String "op" "server.pubSubServer.Subscribe",
             .Error (.errorf "transport is closing")]] ∧
    (step okBroker (serve okBroker (Subscribe { Key := "orders" }) [Tick.handler, Tick.handler])
        (Tick.deliver (.str "item-1") (some (.errorf "transport is closing")))).result
      = none := by
  have h := subscribe_callback_delivery okBroker { Key := "orders" }
    [Tick.handler, Tick.handler] (.str "item-1") (some (.errorf "transport is closing"))
  have hcb : (serve okBroker (Subscribe { Key := "orders" })
      [Tick.handler, Tick.handler]).cb ≠ none := by
    simp [serve, run, step, State.init, Subscribe, SubscribeRequest.GetKey, okBroker]
  refine ⟨hcb, ?_, ?_⟩
  · rw [h.2.2.2.2.2.2.2.2 hcb, runCb_callback]
  · rw [h.2.2.2.2.2.1]
    rfl

end server

/-! ## Graceful shutdown: theorems -/

namespace main

theorem shutdown_run_nil (s : State) : run s [] = s := rfl

theorem shutdown_run_cons (s : State) (t : Tick) (ts : List Tick) :
    run s (t :: ts) = run (step s t) ts := rfl

theorem shutdown_run_append (s : State) (a b : List Tick) :
    run s (a ++ b) = run (run s a) b := by
  simp [run, List.foldl_append]

theorem gracefulShutdown_body (timeout : Int) :
    gracefulShutdown timeout = .log .Info "Starting graceful shutdown"
      (.makeDone (.go drainBody (selectStmt timeout))) := rfl

/-- A tick of the in-flight calls finishing keeps the control point. -/
theorem shutdownAt_step_drained (timeout : Int) (pc : ShutdownPc) (s : State)
    (h : ShutdownAt timeout pc s) : ShutdownAt timeout pc (step s Tick.drained) := by
  cases pc <;> simpa [ShutdownAt, step] using h

/-- A tick of time passing keeps the control point. -/
theorem shutdownAt_step_elapse (timeout : Int) (pc : ShutdownPc) (s : State) (d : Nat)
    (h : ShutdownAt timeout pc s) : ShutdownAt timeout pc (step s (Tick.elapse d)) := by
  cases pc <;> simpa [ShutdownAt, step] using h

/-- A timer tick keeps the control point, except that a timer that is due wakes a
sleeping `select`. -/
theorem shutdownAt_step_timer (timeout : Int) (pc : ShutdownPc) (s : State)
    (h : ShutdownAt timeout pc s) :
    ∃ pc2, ShutdownAt timeout pc2 (step s Tick.timer) ∧ pc.follows false pc2 = true := by
  cases pc <;> simp only [ShutdownAt] at h
  · obtain ⟨hp, hb, htm, hpk, hd, htr⟩ := h
    exact ⟨.entry, by simp [ShutdownAt, step, hp, hb, htm, hpk, hd, htr], by decide⟩
  · obtain ⟨hp, hb, htm, hpk, hd, htr⟩ := h
    exact ⟨.making, by simp [ShutdownAt, step, hp, hb, htm, hpk, hd, htr], by decide⟩
  · obtain ⟨hp, hb, htm, hpk, hd, htr⟩ := h
    exact ⟨.spawning, by simp [ShutdownAt, step, hp, hb, htm, hpk, hd, htr], by decide⟩
  · obtain ⟨hp, hb, htm, hpk, htr⟩ := h
    exact ⟨.arming, by simp [ShutdownAt, step, hp, hb, htm, hpk, htr], by decide⟩
  · obtain ⟨hp, hb, htm, hpk, htr⟩ := h
    refine ⟨.polling, ?_, by decide⟩
    rcases htv : s.timer with _ | (_ | _)
    · exact absurd htv htm
    · by_cases hdue : s.deadline ≤ s.now <;>
        simp [ShutdownAt, step, hp, selectStmt, hb, htv, hpk, htr, hdue]
    · simp [ShutdownAt, step, hp, hb, htv, hpk, htr]
  · obtain ⟨hp, hb, htm, hpk, hd, htr⟩ := h
    by_cases hdue : s.deadline ≤ s.now
    · refine ⟨.timerLog, ?_, by decide⟩
      simp [ShutdownAt, step, hp, selectStmt, State.takeTimer, hb, htm, hpk, hd, htr,
        Action.isMain, hdue]
    · refine ⟨.parked, ?_, by decide⟩
      simp [ShutdownAt, step, hp, selectStmt, hb, htm, hpk, hd, htr, hdue]
  · obtain ⟨hp, hb, htm, hpk, hd, htr⟩ := h
    refine ⟨.doneLog, ?_, by decide⟩
    rcases htv : s.timer with _ | (_ | _)
    · exact absurd htv htm
    · by_cases hdue : s.deadline ≤ s.now <;>
        simp [ShutdownAt, step, hp, hb, htv, hpk, hd, htr, hdue]
    · simp [ShutdownAt, step, hp, hb, htv, hpk, hd, htr]
  · obtain ⟨hp, hb, htm, hpk, hd, htr⟩ := h
    refine ⟨.doneRet, ?_, by decide⟩
    rcases htv : s.timer with _ | (_ | _)
    · exact absurd htv htm
    · by_cases hdue : s.deadline ≤ s.now <;>
        simp [ShutdownAt, step, hp, hb, htv, hpk, hd, htr, hdue]
    · simp [ShutdownAt, step, hp, hb, htv, hpk, hd, htr]
  · obtain ⟨hp, hb, htm, hpk, htr⟩ := h
    exact ⟨.timerLog, by simp [ShutdownAt, step, hp, hb, htm, hpk, htr], by decide⟩
  · obtain ⟨hp, hb, htm, hpk, htr⟩ := h
    exact ⟨.stopping, by simp [ShutdownAt, step, hp, hb, htm, hpk, htr], by decide⟩
  · obtain ⟨hp, hb, htm, hpk, htr⟩ := h
    exact ⟨.forcedRet, by simp [ShutdownAt, step, hp, hb, htm, hpk, htr], by decide⟩

/-- A step of the started goroutine keeps the control point, except that `close(done)`
wakes a sleeping `select`. -/
theorem shutdownAt_step_bg (timeout : Int) (pc : ShutdownPc) (s : State)
    (h : ShutdownAt timeout pc s) :
    ∃ pc2, ShutdownAt timeout pc2 (step s Tick.bg) ∧ pc.follows false pc2 = true := by
  rcases hbv : s.bg with _ | (_ | k | k)
  · exact ⟨pc, by simpa [step, hbv] using h, by cases pc <;> decide⟩
  · exact ⟨pc, by simpa [step, hbv] using h, by cases pc <;> decide⟩
  · refine ⟨pc, ?_, by cases pc <;> decide⟩
    by_cases hi : s.inGracefulStop = true <;> by_cases hdr : s.drained = true <;>
      cases pc <;> simp_all [ShutdownAt, step, Action.isMain]
  · cases pc <;> simp only [ShutdownAt] at h
    · exact absurd h.2.1 (by simp [hbv])
    · exact absurd h.2.1 (by simp [hbv])
    · exact absurd h.2.1 (by simp [hbv])
    · obtain ⟨hp, hb, htm, hpk, htr⟩ := h
      exact ⟨.arming, by simp [ShutdownAt, step, hbv, hp, selectStmt, htm, hpk, htr,
        Action.isMain], by decide⟩
    · obtain ⟨hp, hb, htm, hpk, htr⟩ := h
      exact ⟨.polling, by simp [ShutdownAt, step, hbv, hp, selectStmt, htm, hpk, htr,
        Action.isMain], by decide⟩
    · obtain ⟨hp, hb, htm, hpk, hd, htr⟩ := h
      exact ⟨.doneLog, by simp [ShutdownAt, step, hbv, hp, selectStmt, State.takeDone, htm,
        hpk, htr, Action.isMain], by decide⟩
    · obtain ⟨hp, hb, htm, hpk, hd, htr⟩ := h
      exact ⟨.doneLog, by simp [ShutdownAt, step, hbv, hp, htm, hpk, htr,
        Action.isMain], by decide⟩
    · obtain ⟨hp, hb, htm, hpk, hd, htr⟩ := h
      exact ⟨.doneRet, by simp [ShutdownAt, step, hbv, hp, htm, hpk, htr,
        Action.isMain], by decide⟩
    · obtain ⟨hp, hb, htm, hpk, htr⟩ := h
      exact ⟨.timerLog, by simp [ShutdownAt, step, hbv, hp, htm, hpk, htr,
        Action.isMain], by decide⟩
    · obtain ⟨hp, hb, htm, hpk, htr⟩ := h
      exact ⟨.stopping, by simp [ShutdownAt, step, hbv, hp, htm, hpk, htr,
        Action.isMain], by decide⟩
    · obtain ⟨hp, hb, htm, hpk, htr⟩ := h
      exact ⟨.forcedRet, by simp [ShutdownAt, step, hbv, hp, htm, hpk, htr,
        Action.isMain], by decide⟩

/-- A step of the calling goroutine runs its next statement. -/
theorem shutdownAt_step_main (timeout : Int) (pc : ShutdownPc) (s : State) (p : Bool)
    (h : ShutdownAt timeout pc s) :
    ∃ pc2, ShutdownAt timeout pc2 (step s (Tick.main p)) ∧ pc.follows true pc2 = true := by
  cases pc <;> simp only [ShutdownAt] at h
  · obtain ⟨hp, hb, htm, hpk, hd, htr⟩ := h
    exact ⟨.making, by simp [ShutdownAt, step, hp, gracefulShutdown_body, hb, htm, hpk, hd,
      htr], by decide⟩
  · obtain ⟨hp, hb, htm, hpk, hd, htr⟩ := h
    exact ⟨.spawning, by simp [ShutdownAt, step, hp, hb, htm, hpk, hd, htr], by decide⟩
  · obtain ⟨hp, hb, htm, hpk, hd, htr⟩ := h
    exact ⟨.arming, by simp [ShutdownAt, step, hp, hb, htm, hpk, hd, htr, Action.isMain],
      by decide⟩
  · obtain ⟨hp, hb, htm, hpk, htr⟩ := h
    exact ⟨.polling, by simp [ShutdownAt, step, hp, selectStmt, hb, htm, hpk, htr,
      Action.isMain, prefixTrace], by decide⟩
  · obtain ⟨hp, hb, htm, hpk, htr⟩ := h
    rcases htv : s.timer with _ | (_ | _)
    · exact absurd htv htm
    · by_cases hd : s.doneClosed = true
      · exact ⟨.doneLog, by simp [ShutdownAt, step, hp, selectStmt, State.takeDone, hb, htv,
          hpk, hd, htr, Action.isMain], by decide⟩
      · exact ⟨.parked, by simp [ShutdownAt, step, hp, selectStmt, hb, htv,
          hpk, hd, htr], by decide⟩
    · by_cases hd : s.doneClosed = true
      · cases p
        · exact ⟨.doneLog, by simp [ShutdownAt, step, hp, selectStmt, State.takeDone, hb,
            htv, hpk, hd, htr, Action.isMain], by decide⟩
        · exact ⟨.timerLog, by simp [ShutdownAt, step, hp, selectStmt, State.takeTimer, hb,
            htv, hpk, hd, htr, Action.isMain], by decide⟩
      · exact ⟨.timerLog, by simp [ShutdownAt, step, hp, selectStmt, State.takeTimer, hb,
          htv, hpk, hd, htr, Action.isMain], by decide⟩
  · obtain ⟨hp, hb, htm, hpk, hd, htr⟩ := h
    exact ⟨.parked, by simp [ShutdownAt, step, hp, selectStmt, hb, htm, hpk, hd, htr],
      by decide⟩
  · obtain ⟨hp, hb, htm, hpk, hd, htr⟩ := h
    exact ⟨.doneRet, by simp [ShutdownAt, step, hp, hb, htm, hpk, hd, htr, Action.isMain],
      by decide⟩
  · obtain ⟨hp, hb, htm, hpk, hd, htr⟩ := h
    exact ⟨.doneRet, by simp [ShutdownAt, step, hp, hb, htm, hpk, hd, htr], by decide⟩
  · obtain ⟨hp, hb, htm, hpk, htr⟩ := h
    exact ⟨.stopping, by simp [ShutdownAt, step, hp, hb, htm, hpk, htr, Action.isMain],
      by decide⟩
  · obtain ⟨hp, hb, htm, hpk, htr⟩ := h
    exact ⟨.forcedRet, by simp [ShutdownAt, step, hp, hb, htm, hpk, htr, Action.isMain],
      by decide⟩
  · obtain ⟨hp, hb, htm, hpk, htr⟩ := h
    exact ⟨.forcedRet, by simp [ShutdownAt, step, hp, hb, htm, hpk, htr], by decide⟩

/-- One step of a call of `gracefulShutdown` leads from a control point to a control
point that may follow it. -/
theorem shutdownAt_step (timeout : Int) (pc : ShutdownPc) (s : State) (t : Tick)
    (h : ShutdownAt timeout pc s) :
    ∃ pc2, ShutdownAt timeout pc2 (step s t) ∧ pc.follows t.isMain pc2 = true := by
  cases t with
  | main p => exact shutdownAt_step_main timeout pc s p h
  | bg => exact shutdownAt_step_bg timeout pc s h
  | drained =>
    exact ⟨pc, shutdownAt_step_drained timeout pc s h, by cases pc <;> decide⟩
  | timer => exact shutdownAt_step_timer timeout pc s h
  | elapse d =>
    refine ⟨pc, shutdownAt_step_elapse timeout pc s d h, ?_⟩
    show pc.follows false pc = true
    cases pc <;> decide

/-- A step only adds to the trace. -/
theorem step_trace (s : State) (t : Tick) : ∃ l, (step s t).trace = s.trace ++ l := by
  cases t with
  | drained => exact ⟨[], by simp [step]⟩
  | elapse d => exact ⟨[], by simp [step]⟩
  | timer =>
    rcases htv : s.timer with _ | (_ | _)
    · exact ⟨[], by simp [step, htv]⟩
    · by_cases hdue : s.deadline ≤ s.now
      · cases hp : s.prog <;> by_cases hpk : s.parked = true <;>
          simp [step, htv, hp, hpk, State.takeTimer, hdue]
      · exact ⟨[], by simp [step, htv, hdue]⟩
    · exact ⟨[], by simp [step, htv]⟩
  | bg =>
    rcases hbv : s.bg with _ | (_ | k | k)
    · exact ⟨[], by simp [step, hbv]⟩
    · exact ⟨[], by simp [step, hbv]⟩
    · by_cases hi : s.inGracefulStop = true <;> by_cases hdr : s.drained = true <;>
        simp [step, hbv, hi, hdr]
    · cases hp : s.prog <;> by_cases hpk : s.parked = true <;>
        simp [step, hbv, hp, hpk, State.takeDone]
  | main p =>
    cases hp : s.prog with
    | ret => exact ⟨[], by simp [step, hp]⟩
    | goPanic v => exact ⟨[], by simp [step, hp]⟩
    | log l m k => exact ⟨[.log l m], by simp [step, hp]⟩
    | makeDone k => exact ⟨[.makeDone], by simp [step, hp]⟩
    | go b k => exact ⟨[.go], by simp [step, hp]⟩
    | Stop k => exact ⟨[.Stop], by simp [step, hp]⟩
    | selectDoneOrAfter tm a b =>
      rcases htv : s.timer with _ | f
      · exact ⟨[.timeAfter tm], by simp [step, hp, htv]⟩
      · by_cases hpk : s.parked = true
        · exact ⟨[], by simp [step, hp, htv, hpk]⟩
        · by_cases hd : s.doneClosed = true <;> cases f <;> cases p <;>
            simp [step, hp, htv, hpk, hd, State.takeDone, State.takeTimer]

/-- What is in the trace stays in the trace. -/
theorem mem_trace_step (s : State) (t : Tick) (a : Action) (h : a ∈ s.trace) :
    a ∈ (step s t).trace := by
  obtain ⟨l, hl⟩ := step_trace s t
  rw [hl]; exact List.mem_append_left _ h

/-- What is in the trace stays in the trace along a schedule. -/
theorem mem_trace_run (sched : List Tick) :
    ∀ (s : State) (a : Action), a ∈ s.trace → a ∈ (run s sched).trace := by
  induction sched with
  | nil => intro s a h; exact h
  | cons t ts ih => intro s a h; exact ih _ a (mem_trace_step s t a h)

/-- The facts about the started goroutine carry over to a state that differs only in
what the calling goroutine owns and has a longer trace. -/
theorem drainAt_of_same (s s2 : State) (hb : s2.bg = s.bg)
    (hd : s2.doneClosed = s.doneClosed) (hi : s2.inGracefulStop = s.inGracefulStop)
    (ht : ∀ a ∈ s.trace, a ∈ s2.trace) (h : DrainAt s) : DrainAt s2 := by
  unfold DrainAt at h ⊢
  rw [hb, hd, hi]
  rcases h with ⟨h1, h2, h3⟩ | ⟨h1, h2, h3⟩ | ⟨h1, h2, h3, h4⟩
  · exact Or.inl ⟨h1, h2, fun h => ht _ (h3 h)⟩
  · exact Or.inr (Or.inl ⟨h1, h2, ht _ h3⟩)
  · exact Or.inr (Or.inr ⟨h1, h2, ht _ h3, ht _ h4⟩)

/-- A timer tick leaves the started goroutine and the channel alone. -/
theorem step_timer_fields (s : State) :
    (step s Tick.timer).bg = s.bg ∧ (step s Tick.timer).doneClosed = s.doneClosed ∧
    (step s Tick.timer).inGracefulStop = s.inGracefulStop := by
  rcases htv : s.timer with _ | (_ | _)
  · simp [step, htv]
  · by_cases hdue : s.deadline ≤ s.now
    · cases hp : s.prog <;> by_cases hpk : s.parked = true <;>
        simp [step, htv, hp, hpk, State.takeTimer, hdue]
    · simp [step, htv, hdue]
  · simp [step, htv]

/-- A step of the calling goroutine other than `make` and `go` leaves the started
goroutine and the channel alone. -/
theorem step_main_fields (s : State) (p : Bool) (h1 : ∀ k, s.prog ≠ .makeDone k)
    (h2 : ∀ b k, s.prog ≠ .go b k) :
    (step s (Tick.main p)).bg = s.bg ∧ (step s (Tick.main p)).doneClosed = s.doneClosed ∧
    (step s (Tick.main p)).inGracefulStop = s.inGracefulStop := by
  cases hp : s.prog with
  | ret => simp [step, hp]
  | goPanic v => simp [step, hp]
  | log l m k => simp [step, hp]
  | makeDone k => exact absurd hp (h1 k)
  | go b k => exact absurd hp (h2 b k)
  | Stop k => simp [step, hp]
  | selectDoneOrAfter tm a b =>
    rcases htv : s.timer with _ | f
    · simp [step, hp, htv]
    · by_cases hpk : s.parked = true
      · simp [step, hp, htv, hpk]
      · by_cases hd : s.doneClosed = true <;> cases f <;> cases p <;>
          simp [step, hp, htv, hpk, hd, State.takeDone, State.takeTimer]

/-- The facts about the started goroutine are kept by every step. -/
theorem drainAt_step (timeout : Int) (pc : ShutdownPc) (s : State) (t : Tick)
    (hat : ShutdownAt timeout pc s) (h : DrainAt s) : DrainAt (step s t) := by
  cases t with
  | drained => simpa [DrainAt, step] using h
  | elapse d => simpa [DrainAt, step] using h
  | timer =>
    obtain ⟨h1, h2, h3⟩ := step_timer_fields s
    exact drainAt_of_same s _ h1 h2 h3 (fun a ha => mem_trace_step s _ a ha) h
  | bg =>
    unfold DrainAt at h
    rcases h with ⟨h1 | h1, h2, h3⟩ | ⟨h1, h2, h3⟩ | ⟨h1, h2, h3, h4⟩
    · have : step s Tick.bg = s := by simp [step, h1]
      rw [this]; exact Or.inl ⟨Or.inl h1, h2, h3⟩
    · by_cases hi : s.inGracefulStop = true
      · by_cases hdr : s.drained = true
        · refine Or.inr (Or.inl ?_)
          simp [step, h1, drainBody, hi, hdr, h2, h3 hi]
        · have : step s Tick.bg = s := by simp [step, h1, drainBody, hi, hdr]
          rw [this]; exact Or.inl ⟨Or.inr h1, h2, h3⟩
      · refine Or.inl ?_
        simp [step, h1, drainBody, hi, h2]
    · refine Or.inr (Or.inr ?_)
      cases hp : s.prog <;> by_cases hpk : s.parked = true <;>
        simp [step, h1, hp, hpk, State.takeDone, h3]
    · have : step s Tick.bg = s := by simp [step, h1]
      rw [this]; exact Or.inr (Or.inr ⟨h1, h2, h3, h4⟩)
  | main p =>
    cases pc <;> simp only [ShutdownAt] at hat
    · obtain ⟨hp, hb, htm, hpk, hd, htr⟩ := hat
      exact drainAt_of_same s _ (by simp [step, hp, gracefulShutdown_body])
        (by simp [step, hp, gracefulShutdown_body])
        (by simp [step, hp, gracefulShutdown_body])
        (fun a ha => mem_trace_step s _ a ha) h
    · obtain ⟨hp, hb, htm, hpk, hd, htr⟩ := hat
      exact drainAt_of_same s _ (by simp [step, hp]) (by simp [step, hp, hd])
        (by simp [step, hp]) (fun a ha => mem_trace_step s _ a ha) h
    · obtain ⟨hp, hb, htm, hpk, hd, htr⟩ := hat
      unfold DrainAt at h ⊢
      rcases h with ⟨h1, h2, h3⟩ | ⟨h1, h2, h3⟩ | ⟨h1, h2, h3, h4⟩
      · refine Or.inl ?_
        simp [step, hp, h2]
        intro hi; exact h3 hi
      · rw [hb] at h1; cases h1
      · rw [hb] at h1; cases h1
    all_goals
      obtain ⟨h1, h2, h3⟩ := step_main_fields s p
        (by intro k hk; rw [hat.1] at hk; simp [selectStmt] at hk)
        (by intro b k hk; rw [hat.1] at hk; simp [selectStmt] at hk)
      exact drainAt_of_same s _ h1 h2 h3 (fun a ha => mem_trace_step s _ a ha) h

theorem mem_main (a : Action) (ha : a.isMain = true) (l : List Action) :
    a ∈ l ↔ a ∈ l.filter Action.isMain := by
  simp [List.mem_filter, ha]

theorem count_main (a : Action) (ha : a.isMain = true) (l : List Action) :
    l.count a = (l.filter Action.isMain).count a := by
  rw [List.count_filter ha]

/-- What a control point says about the state. -/
theorem shutdownAt_facts (timeout : Int) (pc : ShutdownPc) (s : State)
    (h : ShutdownAt timeout pc s) :
    (s.result = if pc = .doneRet ∨ pc = .forcedRet then some .returned else none) ∧
    (Action.recvDone ∈ s.trace ↔ pc.tookDone = true) ∧
    (Action.recvTimer ∈ s.trace ↔ pc.tookTimer = true) ∧
    (s.trace.count Action.Stop = if pc = .forcedRet then 1 else 0) ∧
    (Action.go ∈ s.trace ↔ 3 ≤ pc.rank) ∧
    (s.bg ≠ none ↔ 3 ≤ pc.rank) ∧
    (s.timer ≠ none ↔ 4 ≤ pc.rank) ∧
    (s.parked = true ↔ pc = .parked) ∧
    (pc.tookDone = true → s.doneClosed = true) ∧
    (pc.tookTimer = true → s.timer = some true) ∧
    (pc = .parked → s.doneClosed = false ∧ s.timer = some false) ∧
    (pc = .arming ∨ pc = .polling ∨ pc = .parked → s.prog = selectStmt timeout) := by
  rw [mem_main .recvDone rfl, mem_main .recvTimer rfl, mem_main .go rfl,
    count_main .Stop rfl]
  cases pc <;> simp only [ShutdownAt] at h
  · obtain ⟨hp, hb, htm, hpk, hd, htr⟩ := h
    simp [State.result, hp, gracefulShutdown_body, hb, htm, hpk, hd, htr,
      ShutdownPc.tookDone, ShutdownPc.tookTimer, ShutdownPc.rank]
  · obtain ⟨hp, hb, htm, hpk, hd, htr⟩ := h
    simp [State.result, hp, hb, htm, hpk, hd, htr, Action.isMain,
      ShutdownPc.tookDone, ShutdownPc.tookTimer, ShutdownPc.rank]
  · obtain ⟨hp, hb, htm, hpk, hd, htr⟩ := h
    simp [State.result, hp, hb, htm, hpk, hd, htr, Action.isMain,
      ShutdownPc.tookDone, ShutdownPc.tookTimer, ShutdownPc.rank]
  · obtain ⟨hp, hb, htm, hpk, htr⟩ := h
    simp [State.result, hp, selectStmt, hb, htm, hpk, htr, prefixTrace,
      ShutdownPc.tookDone, ShutdownPc.tookTimer, ShutdownPc.rank]
  · obtain ⟨hp, hb, htm, hpk, htr⟩ := h
    simp [State.result, hp, selectStmt, hb, htm, hpk, htr, prefixTrace,
      ShutdownPc.tookDone, ShutdownPc.tookTimer, ShutdownPc.rank]
  · obtain ⟨hp, hb, htm, hpk, hd, htr⟩ := h
    simp [State.result, hp, selectStmt, hb, htm, hpk, hd, htr, prefixTrace,
      ShutdownPc.tookDone, ShutdownPc.tookTimer, ShutdownPc.rank]
  · obtain ⟨hp, hb, htm, hpk, hd, htr⟩ := h
    simp [State.result, hp, hb, htm, hpk, hd, htr, prefixTrace,
      ShutdownPc.tookDone, ShutdownPc.tookTimer, ShutdownPc.rank]
  · obtain ⟨hp, hb, htm, hpk, hd, htr⟩ := h
    simp [State.result, hp, hb, htm, hpk, hd, htr, prefixTrace,
      ShutdownPc.tookDone, ShutdownPc.tookTimer, ShutdownPc.rank]
  · obtain ⟨hp, hb, htm, hpk, htr⟩ := h
    simp [State.result, hp, hb, htm, hpk, htr, prefixTrace,
      ShutdownPc.tookDone, ShutdownPc.tookTimer, ShutdownPc.rank]
  · obtain ⟨hp, hb, htm, hpk, htr⟩ := h
    simp [State.result, hp, hb, htm, hpk, htr, prefixTrace,
      ShutdownPc.tookDone, ShutdownPc.tookTimer, ShutdownPc.rank]
  · obtain ⟨hp, hb, htm, hpk, htr⟩ := h
    simp [State.result, hp, hb, htm, hpk, htr, prefixTrace,
      ShutdownPc.tookDone, ShutdownPc.tookTimer, ShutdownPc.rank]

/-- What `follows` says, in propositions. -/
theorem follows_facts (b : Bool) (pc pc2 : ShutdownPc) (h : pc.follows b pc2 = true) :
    pc.rank ≤ pc2.rank ∧
    (b = true → pc.rank < 4 → pc2.rank = pc.rank + 1) ∧
    (pc.tookDone = true → pc2.tookDone = true ∧ pc2.remaining ≤ pc.remaining ∧
      (b = true → pc2.remaining ≤ pc.remaining - 1)) ∧
    (pc.tookTimer = true → pc2.tookTimer = true ∧ pc2.remaining ≤ pc.remaining ∧
      (b = true → pc2.remaining ≤ pc.remaining - 1)) ∧
    pc2.toReturn ≤ pc.toReturn ∧
    (b = true → pc ≠ .polling → pc ≠ .parked → pc2.toReturn ≤ pc.toReturn - 1) := by
  simp only [ShutdownPc.follows, Bool.and_eq_true, Bool.or_eq_true, decide_eq_true_eq,
    Bool.not_eq_true'] at h
  obtain ⟨⟨⟨⟨⟨h1, t1⟩, t2⟩, h2⟩, h3⟩, h4⟩ := h
  refine ⟨h1, ?_, ?_, ?_, t1, ?_⟩
  · intro hb hr
    rcases h2 with (h2 | h2) | h2
    · rw [hb] at h2; cases h2
    · omega
    · exact h2
  · intro hd
    rcases h3 with h3 | ⟨⟨h3, h5⟩, h6⟩
    · rw [hd] at h3; cases h3
    · refine ⟨h3, h5, fun hb => ?_⟩
      rcases h6 with h6 | h6
      · rw [hb] at h6; cases h6
      · exact h6
  · intro hd
    rcases h4 with h4 | ⟨⟨h4, h5⟩, h6⟩
    · rw [hd] at h4; cases h4
    · refine ⟨h4, h5, fun hb => ?_⟩
      rcases h6 with h6 | h6
      · rw [hb] at h6; cases h6
      · exact h6
  · intro hb hn1 hn2
    rcases t2 with ((t2 | t2) | t2) | t2
    · rw [hb] at t2; cases t2
    · exact absurd t2 hn1
    · exact absurd t2 hn2
    · exact t2

/-- Along a schedule the steps of the calling goroutine are counted one by one. -/
theorem mainTicks_cons (t : Tick) (ts : List Tick) :
    mainTicks (t :: ts) = mainTicks ts + (if t.isMain = true then 1 else 0) := by
  simp [mainTicks, List.countP_cons]

/-- Along a schedule a call of `gracefulShutdown` moves through its control points:
never backwards, one statement per step of the calling goroutine before the `select`,
and, once the `select` has taken a case, one of the statements left in that case. -/
theorem shutdownAt_run (timeout : Int) (sched : List Tick) :
    ∀ (s : State) (pc : ShutdownPc), ShutdownAt timeout pc s → DrainAt s →
      ∃ pc2, ShutdownAt timeout pc2 (run s sched) ∧ DrainAt (run s sched) ∧
        pc.rank ≤ pc2.rank ∧ min (pc.rank + mainTicks sched) 4 ≤ pc2.rank ∧
        (pc.tookDone = true →
          pc2.tookDone = true ∧ pc2.remaining ≤ pc.remaining - mainTicks sched) ∧
        (pc.tookTimer = true →
          pc2.tookTimer = true ∧ pc2.remaining ≤ pc.remaining - mainTicks sched) := by
  induction sched with
  | nil =>
    intro s pc h hd
    refine ⟨pc, h, hd, le_refl _, ?_, fun h => ⟨h, by simp [mainTicks]⟩,
      fun h => ⟨h, by simp [mainTicks]⟩⟩
    have : pc.rank ≤ 4 := by cases pc <;> simp [ShutdownPc.rank]
    simp [mainTicks]
  | cons t ts ih =>
    intro s pc h hd
    obtain ⟨pc1, h1, hf⟩ := shutdownAt_step timeout pc s t h
    have hd1 := drainAt_step timeout pc s t h hd
    obtain ⟨f1, f2, f3, f4, _, _⟩ := follows_facts _ _ _ hf
    obtain ⟨pc2, h2, hd2, g1, g2, g3, g4⟩ := ih _ pc1 h1 hd1
    refine ⟨pc2, h2, hd2, by omega, ?_, ?_, ?_⟩
    · rw [mainTicks_cons]
      by_cases hm : t.isMain = true
      · rw [if_pos hm]
        by_cases hr : pc.rank < 4
        · have := f2 hm hr
          omega
        · omega
      · rw [if_neg hm]
        omega
    · intro hpc
      obtain ⟨a1, a2, a3⟩ := f3 hpc
      obtain ⟨b1, b2⟩ := g3 a1
      refine ⟨b1, ?_⟩
      rw [mainTicks_cons]
      by_cases hm : t.isMain = true
      · rw [if_pos hm]
        have := a3 hm
        omega
      · rw [if_neg hm]
        omega
    · intro hpc
      obtain ⟨a1, a2, a3⟩ := f4 hpc
      obtain ⟨b1, b2⟩ := g4 a1
      refine ⟨b1, ?_⟩
      rw [mainTicks_cons]
      by_cases hm : t.isMain = true
      · rw [if_pos hm]
        have := a3 hm
        omega
      · rw [if_neg hm]
        omega

/-- A fresh call is at its entry, with no goroutine started. -/
theorem shutdown_init (timeout : Int) :
    ShutdownAt timeout .entry (State.init (gracefulShutdown timeout)) ∧
    DrainAt (State.init (gracefulShutdown timeout)) := by
  constructor
  · simp [ShutdownAt, State.init]
  · exact Or.inl ⟨Or.inl rfl, rfl, by simp [State.init]⟩

/-- Every state a call of `gracefulShutdown` reaches is at a control point. -/
theorem shutdown_at (timeout : Int) (sched : List Tick) :
    ∃ pc, ShutdownAt timeout pc (shutdown timeout sched) ∧
      DrainAt (shutdown timeout sched) ∧ min (mainTicks sched) 4 ≤ pc.rank := by
  obtain ⟨h0, d0⟩ := shutdown_init timeout
  obtain ⟨pc, h, hd, _, hr, _, _⟩ := shutdownAt_run timeout sched _ _ h0 d0
  exact ⟨pc, h, hd, by simpa [ShutdownPc.rank] using hr⟩

/-- The control point of a `select` that has taken `<-done` and has nothing left to run. -/
theorem tookDone_remaining_zero (pc : ShutdownPc) (h : pc.tookDone = true)
    (hr : pc.remaining = 0) : pc = .doneRet := by
  cases pc <;> simp_all [ShutdownPc.tookDone, ShutdownPc.remaining]

/-- The control point of a `select` that has taken the timer and has nothing left to run. -/
theorem tookTimer_remaining_zero (pc : ShutdownPc) (h : pc.tookTimer = true)
    (hr : pc.remaining = 0) : pc = .forcedRet := by
  cases pc <;> simp_all [ShutdownPc.tookTimer, ShutdownPc.remaining]

/-- At most one statement is left once the `select` has taken `<-done`. -/
theorem tookDone_remaining_le (pc : ShutdownPc) (h : pc.tookDone = true) :
    pc.remaining ≤ 1 := by
  cases pc <;> simp_all [ShutdownPc.tookDone, ShutdownPc.remaining]

/-- At most two statements are left once the `select` has taken a case. -/
theorem remaining_le (pc : ShutdownPc) : pc.remaining ≤ 2 := by
  cases pc <;> simp [ShutdownPc.remaining]

/-- The first of `close(done)` and the timer to happen while the `select` sleeps is the
case the `select` takes. -/
theorem parked_wakeup (timeout : Int) (s : State) (t : Tick)
    (h : ShutdownAt timeout .parked s) :
    ((step s t).doneClosed = true → Action.recvDone ∈ (step s t).trace) ∧
    ((step s t).timer = some true → Action.recvTimer ∈ (step s t).trace) := by
  obtain ⟨hp, hb, htm, hpk, hd, htr⟩ := h
  cases t with
  | main p => simp [step, hp, selectStmt, htm, hpk, hd]
  | drained => simp [step, htm, hd]
  | elapse d => simp [step, htm, hd]
  | timer =>
    by_cases hdue : s.deadline ≤ s.now <;>
      simp [step, hp, selectStmt, htm, hpk, hd, State.takeTimer, hdue]
  | bg =>
    rcases hbv : s.bg with _ | (_ | k | k)
    · simp [step, hbv, htm, hd]
    · simp [step, hbv, htm, hd]
    · by_cases hi : s.inGracefulStop = true <;> by_cases hdr : s.drained = true <;>
        simp [step, hbv, hi, hdr, htm, hd]
    · simp [step, hbv, hp, selectStmt, hpk, htm, State.takeDone]

/-- The only timer a call starts is the one of `time.After(timeout)`. -/
theorem shutdownAt_timeAfter (timeout : Int) (pc : ShutdownPc) (s : State)
    (h : ShutdownAt timeout pc s) :
    (∀ d, Action.timeAfter d ∈ s.trace → d = timeout) ∧
    (s.timer ≠ none → Action.timeAfter timeout ∈ s.trace) := by
  have hm : ∀ d, Action.timeAfter d ∈ s.trace ↔
      Action.timeAfter d ∈ s.trace.filter Action.isMain :=
    fun d => mem_main (.timeAfter d) rfl _
  simp only [hm]
  cases pc <;> simp only [ShutdownAt] at h
  · obtain ⟨hp, hb, htm, hpk, hd, htr⟩ := h
    simp [htm, htr]
  · obtain ⟨hp, hb, htm, hpk, hd, htr⟩ := h
    simp [htm, htr, Action.isMain]
  · obtain ⟨hp, hb, htm, hpk, hd, htr⟩ := h
    simp [htm, htr, Action.isMain]
  · obtain ⟨hp, hb, htm, hpk, htr⟩ := h
    simp [htm, htr]
  · obtain ⟨hp, hb, htm, hpk, htr⟩ := h
    simp [htr, prefixTrace]
  · obtain ⟨hp, hb, htm, hpk, hd, htr⟩ := h
    simp [htr, prefixTrace]
  · obtain ⟨hp, hb, htm, hpk, hd, htr⟩ := h
    simp [htr, prefixTrace]
  · obtain ⟨hp, hb, htm, hpk, hd, htr⟩ := h
    simp [htr, prefixTrace]
  · obtain ⟨hp, hb, htm, hpk, htr⟩ := h
    simp [htr, prefixTrace]
  · obtain ⟨hp, hb, htm, hpk, htr⟩ := h
    simp [htr, prefixTrace]
  · obtain ⟨hp, hb, htm, hpk, htr⟩ := h
    simp [htr, prefixTrace]

/-- The facts about the timer carry over to a state with the same timer and clock. -/
theorem timerAt_of_same (timeout : Int) (s s2 : State) (h1 : s2.timer = s.timer)
    (h2 : s2.deadline = s.deadline) (h3 : s2.armedAt = s.armedAt) (h4 : s2.now = s.now)
    (h : TimerAt timeout s) : TimerAt timeout s2 := by
  unfold TimerAt at h ⊢
  rw [h1, h2, h3, h4]; exact h

/-- A step of the started goroutine leaves the timer and the clock alone. -/
theorem step_bg_clock (s : State) :
    (step s Tick.bg).timer = s.timer ∧ (step s Tick.bg).deadline = s.deadline ∧
    (step s Tick.bg).armedAt = s.armedAt ∧ (step s Tick.bg).now = s.now := by
  rcases hbv : s.bg with _ | (_ | k | k)
  · simp [step, hbv]
  · simp [step, hbv]
  · by_cases hi : s.inGracefulStop = true <;> by_cases hdr : s.drained = true <;>
      simp [step, hbv, hi, hdr]
  · cases hp : s.prog <;> by_cases hpk : s.parked = true <;>
      simp [step, hbv, hp, hpk, State.takeDone]

/-- A step of the calling goroutine leaves the timer and the clock alone, unless it
evaluates `time.After`. -/
theorem step_main_clock (s : State) (p : Bool)
    (h : s.timer ≠ none ∨ ∀ tm a b, s.prog ≠ .selectDoneOrAfter tm a b) :
    (step s (Tick.main p)).timer = s.timer ∧ (step s (Tick.main p)).deadline = s.deadline ∧
    (step s (Tick.main p)).armedAt = s.armedAt ∧ (step s (Tick.main p)).now = s.now := by
  cases hp : s.prog with
  | ret => simp [step, hp]
  | goPanic v => simp [step, hp]
  | log l m k => simp [step, hp]
  | makeDone k => simp [step, hp]
  | go b k => simp [step, hp]
  | Stop k => simp [step, hp]
  | selectDoneOrAfter tm a b =>
    rcases htv : s.timer with _ | f
    · rcases h with h | h
      · exact absurd htv h
      · exact absurd hp (h tm a b)
    · by_cases hpk : s.parked = true
      · simp [step, hp, htv, hpk]
      · by_cases hd : s.doneClosed = true <;> cases f <;> cases p <;>
          simp [step, hp, htv, hpk, hd, State.takeDone, State.takeTimer]

/-- A timer tick leaves the clock and the due time alone. -/
theorem step_timer_clock (s : State) :
    (step s Tick.timer).deadline = s.deadline ∧
    (step s Tick.timer).armedAt = s.armedAt ∧ (step s Tick.timer).now = s.now := by
  rcases htv : s.timer with _ | (_ | _)
  · simp [step, htv]
  · by_cases hdue : s.deadline ≤ s.now
    · cases hp : s.prog <;> by_cases hpk : s.parked = true <;>
        simp [step, htv, hp, hpk, State.takeTimer, hdue]
    · simp [step, htv, hdue]
  · simp [step, htv]

/-- The facts about the timer are kept by every step. -/
theorem timerAt_step (timeout : Int) (pc : ShutdownPc) (s : State) (t : Tick)
    (hat : ShutdownAt timeout pc s) (h : TimerAt timeout s) :
    TimerAt timeout (step s t) := by
  cases t with
  | drained => simpa [TimerAt, step] using h
  | elapse d =>
    unfold TimerAt at h ⊢
    rcases h with h | ⟨h1, h2, h3⟩
    · exact Or.inl (by simpa [step] using h)
    · refine Or.inr ⟨by simpa [step] using h1, ?_, ?_⟩
      · have : (step s (Tick.elapse d)).now = s.now + d := by simp [step]
        have ha : (step s (Tick.elapse d)).armedAt = s.armedAt := by simp [step]
        rw [this, ha]; omega
      · intro ht
        have hn : (step s (Tick.elapse d)).now = s.now + d := by simp [step]
        have hdl : (step s (Tick.elapse d)).deadline = s.deadline := by simp [step]
        have htm : (step s (Tick.elapse d)).timer = s.timer := by simp [step]
        rw [htm] at ht
        have := h3 ht
        rw [hn, hdl]; omega
  | bg =>
    obtain ⟨h1, h2, h3, h4⟩ := step_bg_clock s
    exact timerAt_of_same timeout s _ h1 h2 h3 h4 h
  | timer =>
    rcases htv : s.timer with _ | (_ | _)
    · have : step s Tick.timer = s := by simp [step, htv]
      rw [this]; exact h
    · by_cases hdue : s.deadline ≤ s.now
      · obtain ⟨c1, c2, c3⟩ := step_timer_clock s
        unfold TimerAt at h ⊢
        rcases h with h | ⟨h1, h2, h3⟩
        · rw [htv] at h; cases h
        · refine Or.inr ?_
          rw [c1, c2, c3]
          exact ⟨h1, h2, fun _ => hdue⟩
      · have : step s Tick.timer = s := by simp [step, htv, hdue]
        rw [this]; exact h
    · have : step s Tick.timer = s := by simp [step, htv]
      rw [this]; exact h
  | main p =>
    by_cases harm : pc = .arming
    · subst harm
      obtain ⟨hp, hb, htm, hpk, htr⟩ := hat
      refine Or.inr ?_
      simp [step, hp, selectStmt, htm]
    · have hc : s.timer ≠ none ∨ ∀ tm a b, s.prog ≠ .selectDoneOrAfter tm a b := by
        cases pc <;> simp only [ShutdownAt] at hat
        · exact Or.inr (by rw [hat.1]; simp [gracefulShutdown])
        · exact Or.inr (by rw [hat.1]; simp)
        · exact Or.inr (by rw [hat.1]; simp)
        · exact absurd rfl harm
        · exact Or.inl hat.2.2.1
        · exact Or.inl (by rw [hat.2.2.1]; simp)
        · exact Or.inl hat.2.2.1
        · exact Or.inl hat.2.2.1
        · exact Or.inl (by rw [hat.2.2.1]; simp)
        · exact Or.inl (by rw [hat.2.2.1]; simp)
        · exact Or.inl (by rw [hat.2.2.1]; simp)
      obtain ⟨h1, h2, h3, h4⟩ := step_main_clock s p hc
      exact timerAt_of_same timeout s _ h1 h2 h3 h4 h

/-- Every state a call of `gracefulShutdown` reaches satisfies the facts about the
timer. -/
theorem timerAt_run (timeout : Int) (sched : List Tick) :
    ∀ (s : State) (pc : ShutdownPc), ShutdownAt timeout pc s → TimerAt timeout s →
      TimerAt timeout (run s sched) := by
  induction sched with
  | nil => intro s pc _ h; exact h
  | cons t ts ih =>
    intro s pc hat h
    obtain ⟨pc1, h1, _⟩ := shutdownAt_step timeout pc s t hat
    exact ih _ pc1 h1 (timerAt_step timeout pc s t hat h)

/-- The timer of a call of `gracefulShutdown(timeout)` is due `timeout` after the
`select` started, and has fired only if that much time has passed. -/
theorem shutdown_timerAt (timeout : Int) (sched : List Tick) :
    TimerAt timeout (shutdown timeout sched) :=
  timerAt_run timeout sched _ .entry (shutdown_init timeout).1 (Or.inl rfl)

/-- A closed `done` stays closed: only `make` opens a new channel. -/
theorem step_doneClosed (s : State) (t : Tick) (h1 : ∀ k, s.prog ≠ .makeDone k)
    (h : s.doneClosed = true) : (step s t).doneClosed = true := by
  cases t with
  | drained => simpa [step] using h
  | elapse d => simpa [step] using h
  | timer => rw [(step_timer_fields s).2.1]; exact h
  | bg =>
    rcases hbv : s.bg with _ | (_ | k | k)
    · simpa [step, hbv] using h
    · simpa [step, hbv] using h
    · by_cases hi : s.inGracefulStop = true <;> by_cases hdr : s.drained = true <;>
        simp [step, hbv, hi, hdr, h]
    · cases hp : s.prog <;> by_cases hpk : s.parked = true <;>
        simp [step, hbv, hp, hpk, State.takeDone]
  | main p =>
    cases hp : s.prog with
    | ret => simpa [step, hp] using h
    | goPanic v => simpa [step, hp] using h
    | log l m k => simpa [step, hp] using h
    | makeDone k => exact absurd hp (h1 k)
    | go b k => simpa [step, hp] using h
    | Stop k => simpa [step, hp] using h
    | selectDoneOrAfter tm a b =>
      rcases htv : s.timer with _ | f
      · simpa [step, hp, htv] using h
      · by_cases hpk : s.parked = true
        · simpa [step, hp, htv, hpk] using h
        · cases f <;> cases p <;>
            simp [step, hp, htv, hpk, h, State.takeDone, State.takeTimer]

/-- A timer that has fired stays fired. -/
theorem step_timer_fired (s : State) (t : Tick) (h : s.timer = some true) :
    (step s t).timer = some true := by
  cases t with
  | drained => simpa [step] using h
  | elapse d => simpa [step] using h
  | timer => simp [step, h]
  | bg => rw [(step_bg_clock s).1]; exact h
  | main p => rw [(step_main_clock s p (Or.inl (by rw [h]; simp))).1]; exact h

/-- A `select` that looks at its channels and finds one ready takes a case: the ready
one when there is exactly one, `<-done` or the timer as the runtime picks when both
are ready. -/
theorem polling_takes_ready (timeout : Int) (s : State) (p : Bool)
    (h : ShutdownAt timeout .polling s) :
    (s.doneClosed = true → s.timer = some false →
      ShutdownAt timeout .doneLog (step s (Tick.main p)) ∧
      Action.recvDone ∈ (step s (Tick.main p)).trace) ∧
    (s.doneClosed = false → s.timer = some true →
      ShutdownAt timeout .timerLog (step s (Tick.main p)) ∧
      Action.recvTimer ∈ (step s (Tick.main p)).trace) ∧
    (s.doneClosed = true → s.timer = some true → p = false →
      ShutdownAt timeout .doneLog (step s (Tick.main p)) ∧
      Action.recvDone ∈ (step s (Tick.main p)).trace) ∧
    (s.doneClosed = true → s.timer = some true → p = true →
      ShutdownAt timeout .timerLog (step s (Tick.main p)) ∧
      Action.recvTimer ∈ (step s (Tick.main p)).trace) := by
  obtain ⟨hp, hb, htm, hpk, htr⟩ := h
  refine ⟨?_, ?_, ?_, ?_⟩
  · intro hd ht
    simp [ShutdownAt, step, hp, selectStmt, ht, hpk, hd, State.takeDone, hb, htr,
      Action.isMain]
  · intro hd ht
    simp [ShutdownAt, step, hp, selectStmt, ht, hpk, hd, State.takeTimer, hb, htr,
      Action.isMain]
  · intro hd ht hpf
    simp [ShutdownAt, step, hp, selectStmt, ht, hpk, hd, hpf, State.takeDone, hb, htr,
      Action.isMain]
  · intro hd ht hpt
    simp [ShutdownAt, step, hp, selectStmt, ht, hpk, hd, hpt, State.takeTimer, hb, htr,
      Action.isMain]

/-- With a channel ready, every step keeps a channel ready and brings the return no
further away; a step of the calling goroutine brings it one step nearer. -/
theorem ready_step (timeout : Int) (pc : ShutdownPc) (s : State) (t : Tick)
    (h : ShutdownAt timeout pc s) (hr : s.ready) :
    ∃ pc2, ShutdownAt timeout pc2 (step s t) ∧ (step s t).ready ∧
      pc2.toReturn ≤ pc.toReturn ∧ pc.toReturn ≤ 4 ∧
      (t.isMain = true → pc2.toReturn ≤ pc.toReturn - 1) := by
  obtain ⟨_, _, _, _, _, _, f7, _, _, _, f11, _⟩ := shutdownAt_facts timeout pc s h
  have hnp : pc ≠ .parked := by
    intro hpc
    obtain ⟨a, b⟩ := f11 hpc
    rcases hr with hr | hr
    · rw [a] at hr; cases hr
    · rw [b] at hr; cases hr
  have hprog : ∀ k, s.prog ≠ .makeDone k := by
    intro k hk
    cases pc <;> simp only [ShutdownAt] at h
    all_goals first
      | (rw [h.1] at hk; simp [gracefulShutdown, selectStmt] at hk; done)
      | (obtain ⟨_, _, htm, _, hd, _⟩ := h
         rcases hr with hr | hr
         · rw [hd] at hr; cases hr
         · rw [htm] at hr; cases hr)
  have hle : pc.toReturn ≤ 4 := by
    cases pc <;> simp only [ShutdownAt] at h
    all_goals first
      | (simp [ShutdownPc.toReturn]; done)
      | (obtain ⟨_, _, htm, _, hd, _⟩ := h
         rcases hr with hr | hr
         · rw [hd] at hr; cases hr
         · rw [htm] at hr; cases hr)
  have hready : (step s t).ready := by
    rcases hr with hr | hr
    · exact Or.inl (step_doneClosed s t hprog hr)
    · exact Or.inr (step_timer_fired s t hr)
  by_cases hpoll : pc = .polling ∧ t.isMain = true
  · obtain ⟨hpc, hm⟩ := hpoll
    subst hpc
    cases t with
    | main p =>
      obtain ⟨q1, q2, q3, q4⟩ := polling_takes_ready timeout s p h
      have htm : s.timer ≠ none := h.2.2.1
      rcases hdv : s.doneClosed with _ | _
      · have ht : s.timer = some true := by
          rcases hr with hr | hr
          · rw [hdv] at hr; cases hr
          · exact hr
        exact ⟨.timerLog, (q2 hdv ht).1, hready, by decide, hle, fun _ => by decide⟩
      · rcases htv : s.timer with _ | (_ | _)
        · exact absurd htv htm
        · exact ⟨.doneLog, (q1 hdv htv).1, hready, by decide, hle, fun _ => by decide⟩
        · cases p
          · exact ⟨.doneLog, (q3 hdv htv rfl).1, hready, by decide, hle, fun _ => by decide⟩
          · exact ⟨.timerLog, (q4 hdv htv rfl).1, hready, by decide, hle, fun _ => by decide⟩
    | bg => cases hm
    | drained => cases hm
    | timer => cases hm
    | elapse d => cases hm
  · obtain ⟨pc2, h2, hf⟩ := shutdownAt_step timeout pc s t h
    obtain ⟨_, _, _, _, g5, g6⟩ := follows_facts _ _ _ hf
    refine ⟨pc2, h2, hready, g5, hle, fun hm => g6 hm ?_ hnp⟩
    intro hpc
    exact hpoll ⟨hpc, hm⟩

/-- With a channel ready, each step of the calling goroutine brings the return one
step nearer, and four of them are enough. -/
theorem ready_run (timeout : Int) (sched : List Tick) :
    ∀ (s : State) (pc : ShutdownPc), ShutdownAt timeout pc s → s.ready →
      ∃ pc2, ShutdownAt timeout pc2 (run s sched) ∧
        pc2.toReturn ≤ pc.toReturn - mainTicks sched ∧ pc.toReturn ≤ 4 := by
  induction sched with
  | nil =>
    intro s pc h hr
    obtain ⟨_, _, _, _, hle, _⟩ := ready_step timeout pc s Tick.drained h hr
    exact ⟨pc, h, by simp [mainTicks], hle⟩
  | cons t ts ih =>
    intro s pc h hr
    obtain ⟨pc1, h1, hr1, a1, hle, a2⟩ := ready_step timeout pc s t h hr
    obtain ⟨pc2, h2, b1, _⟩ := ih _ pc1 h1 hr1
    refine ⟨pc2, h2, ?_, hle⟩
    rw [mainTicks_cons]
    by_cases hm : t.isMain = true
    · rw [if_pos hm]
      have := a2 hm
      omega
    · rw [if_neg hm]
      omega

/-- A call with nothing left to run has returned. -/
theorem toReturn_zero (pc : ShutdownPc) (h : pc.toReturn = 0) :
    pc = .doneRet ∨ pc = .forcedRet := by
  cases pc <;> simp_all [ShutdownPc.toReturn]

/-- The goroutine `gracefulShutdown` starts calls `GracefulStop` at its first step. -/
theorem drain_first_step (s : State) (h : DrainAt s) (hb : s.bg ≠ none) :
    Action.GracefulStop ∈ (step s Tick.bg).trace := by
  unfold DrainAt at h
  rcases h with ⟨h1 | h1, _, h3⟩ | ⟨_, _, h3⟩ | ⟨_, _, h3, _⟩
  · exact absurd h1 hb
  · by_cases hi : s.inGracefulStop = true
    · exact mem_trace_step s _ _ (h3 hi)
    · simp [step, h1, drainBody, hi]
  · exact mem_trace_step s _ _ h3
  · exact mem_trace_step s _ _ h3

theorem bgTicks_cons (t : Tick) (ts : List Tick) :
    bgTicks (t :: ts) = bgTicks ts + (if t = Tick.bg then 1 else 0) := by
  simp [bgTicks, List.count_cons]

/-- Once the in-flight calls have finished they stay finished. -/
theorem step_drained (s : State) (t : Tick) (h : s.drained = true) :
    (step s t).drained = true := by
  cases t with
  | drained => simp [step]
  | elapse d => simpa [step] using h
  | timer =>
    rcases htv : s.timer with _ | (_ | _)
    · simpa [step, htv] using h
    · by_cases hdue : s.deadline ≤ s.now
      · cases hp : s.prog <;> by_cases hpk : s.parked = true <;>
          simp [step, htv, hp, hpk, State.takeTimer, hdue, h]
      · simpa [step, htv, hdue] using h
    · simpa [step, htv] using h
  | bg =>
    rcases hbv : s.bg with _ | (_ | k | k)
    · simpa [step, hbv] using h
    · simpa [step, hbv] using h
    · by_cases hi : s.inGracefulStop = true <;> simp [step, hbv, hi, h]
    · cases hp : s.prog <;> by_cases hpk : s.parked = true <;>
        simp [step, hbv, hp, hpk, State.takeDone, h]
  | main p =>
    cases hp : s.prog with
    | ret => simpa [step, hp] using h
    | goPanic v => simpa [step, hp] using h
    | log l m k => simpa [step, hp] using h
    | makeDone k => simpa [step, hp] using h
    | go b k => simpa [step, hp] using h
    | Stop k => simp [step, hp]
    | selectDoneOrAfter tm a b =>
      rcases htv : s.timer with _ | f
      · simpa [step, hp, htv] using h
      · by_cases hpk : s.parked = true
        · simpa [step, hp, htv, hpk] using h
        · by_cases hd : s.doneClosed = true <;> cases f <;> cases p <;>
            simp [step, hp, htv, hpk, hd, h, State.takeDone, State.takeTimer]

/-- Once the goroutine is started and the in-flight calls have finished, every step of
the goroutine brings `close(done)` one step nearer, and no other step undoes that. -/
theorem drain_step (timeout : Int) (pc : ShutdownPc) (s : State) (t : Tick)
    (hat : ShutdownAt timeout pc s) (hdr : DrainAt s) (hb : s.bg ≠ none)
    (hd : s.drained = true) :
    (step s t).bg ≠ none ∧
    (step s t).bgLeft ≤ s.bgLeft - (if t = Tick.bg then 1 else 0) := by
  cases t with
  | drained => simp [step, State.bgLeft, hb]
  | elapse d => simp [step, State.bgLeft, hb]
  | timer =>
    obtain ⟨h1, _, h3⟩ := step_timer_fields s
    simp [State.bgLeft, h1, h3, hb]
  | main p =>
    obtain ⟨_, _, _, _, _, f6, _, _, _, _, _, _⟩ := shutdownAt_facts timeout pc s hat
    have hrank := f6.1 hb
    have hprog : (∀ k, s.prog ≠ .makeDone k) ∧ (∀ b k, s.prog ≠ .go b k) := by
      cases pc <;> simp only [ShutdownAt] at hat <;>
        first
          | (simp [ShutdownPc.rank] at hrank; done)
          | (rw [hat.1]; simp [selectStmt])
    obtain ⟨h1, _, h3⟩ := step_main_fields s p hprog.1 hprog.2
    simp [State.bgLeft, h1, h3, hb]
  | bg =>
    unfold DrainAt at hdr
    rcases hdr with ⟨h1 | h1, _, _⟩ | ⟨h1, _, _⟩ | ⟨h1, _, _, _⟩
    · exact absurd h1 hb
    · by_cases hi : s.inGracefulStop = true
      · simp [step, State.bgLeft, h1, drainBody, hi, hd]
      · simp [step, State.bgLeft, h1, drainBody, hi]
    · cases hp : s.prog <;> by_cases hpk : s.parked = true <;>
        simp [step, State.bgLeft, h1, hp, hpk, State.takeDone]
    · simp [step, State.bgLeft, h1]

/-- Once the goroutine is started and the in-flight calls have finished, three steps
of the goroutine are enough for it to close `done`. -/
theorem drain_run (timeout : Int) (sched : List Tick) :
    ∀ (s : State) (pc : ShutdownPc), ShutdownAt timeout pc s → DrainAt s → s.bg ≠ none →
      s.drained = true →
      DrainAt (run s sched) ∧ (run s sched).bg ≠ none ∧
      (run s sched).bgLeft ≤ s.bgLeft - bgTicks sched := by
  induction sched with
  | nil => intro s pc _ hdr hb _; exact ⟨hdr, hb, by simp [bgTicks, shutdown_run_nil]⟩
  | cons t ts ih =>
    intro s pc hat hdr hb hd
    obtain ⟨pc1, hat1, _⟩ := shutdownAt_step timeout pc s t hat
    obtain ⟨hb1, hl1⟩ := drain_step timeout pc s t hat hdr hb hd
    obtain ⟨a1, a2, a3⟩ := ih _ pc1 hat1 (drainAt_step timeout pc s t hat hdr) hb1
      (step_drained s t hd)
    refine ⟨a1, a2, ?_⟩
    rw [bgTicks_cons]
    show (run (step s t) ts).bgLeft ≤ _
    omega

/-- The started goroutine has at most three steps left, and with none left `done` is
closed after `GracefulStop` was called. -/
theorem bgLeft_facts (s : State) (hdr : DrainAt s) (hb : s.bg ≠ none) :
    s.bgLeft ≤ 3 ∧ (s.bgLeft = 0 → s.doneClosed = true ∧ Action.closeDone ∈ s.trace) := by
  unfold DrainAt at hdr
  rcases hdr with ⟨h1 | h1, _, _⟩ | ⟨h1, _, _⟩ | ⟨h1, h2, _, h4⟩
  · exact absurd h1 hb
  · by_cases hi : s.inGracefulStop = true <;> simp [State.bgLeft, h1, drainBody, hi]
  · simp [State.bgLeft, h1]
  · simp [State.bgLeft, h1, h2, h4]

/-- C9, as the claim states it, fails, with a zero timeout.  On the first schedule the
drain completes (`done` is closed) before the timer is even started; the `select` then
finds both channels ready, takes the timer, and the forced `Stop` is called all the
same.  On the second schedule the goroutine is started but does not get to run before
the timer fires: the call returns after `Stop` and `GracefulStop` has not been entered. -/
theorem gracefulShutdown_drain_first_may_stop :
    ((shutdown 0 drainFirstPrefix).doneClosed = true ∧
     (shutdown 0 drainFirstPrefix).timer = none ∧
     (shutdown 0 (drainFirstPrefix ++ tieSuffix)).result = some .returned ∧
     (shutdown 0 (drainFirstPrefix ++ tieSuffix)).trace =
       [.log .Info "Starting graceful shutdown", .makeDone, .go, .GracefulStop, .closeDone,
        .timeAfter 0, .recvTimer, .log .Warn "Graceful shutdown timed out, forcing stop",
        .Stop]) ∧
    ((shutdown 0 stopBeforeDrainSchedule).result = some .returned ∧
     (shutdown 0 stopBeforeDrainSchedule).trace =
       [.log .Info "Starting graceful shutdown", .makeDone, .go, .timeAfter 0, .recvTimer,
        .log .Warn "Graceful shutdown timed out, forcing stop", .Stop]) := by
  decide

/-- C9, amended.  On every schedule `gracefulShutdown` returns normally or has not
returned yet; it starts the goroutine that calls `GracefulStop` and then closes `done`
before it starts the timer; it does not return while `done` is open and the timer has
not fired.  Its `select` takes one case, once: if it takes `<-done`, `done` was closed
after `GracefulStop` and `Stop` is never called; if it takes the timer, the timer has
fired and `Stop` is called at most once, exactly once by the time it returns; `Stop` is
called in no other way.  A sleeping `select` takes the first of the two to happen; a
`select` that finds exactly one ready takes that one; a `select` that finds both ready
takes `<-done` or the timer, as the runtime picks.  Once a case is taken the call
returns within one step (`<-done`) or two steps (timer) of the calling goroutine, and
once `done` is closed or the timer has fired four steps of the calling goroutine are
enough for it to return, whichever case is taken.  The goroutine calls `GracefulStop`
at its first step and, once the in-flight calls have finished, closes `done` within
three steps.  The only timer is the one of `time.After(timeout)`: it is due
`timeout` after the `select` started and fires, and is received, no earlier. -/
theorem gracefulShutdown_select_outcome (timeout : Int) (sched : List Tick) :
    ((shutdown timeout sched).result = none ∨
      (shutdown timeout sched).result = some .returned) ∧
    (3 ≤ mainTicks sched → (shutdown timeout sched).bg ≠ none) ∧
    (4 ≤ mainTicks sched → (shutdown timeout sched).timer ≠ none) ∧
    ((shutdown timeout sched).timer ≠ none →
      Action.go ∈ (shutdown timeout sched).trace ∧ (shutdown timeout sched).bg ≠ none) ∧
    ((shutdown timeout sched).bg ≠ none →
      (shutdown timeout sched).bg = some (.GracefulStop (.closeDone .exit)) ∨
      Action.GracefulStop ∈ (shutdown timeout sched).trace) ∧
    ((shutdown timeout sched).doneClosed = true →
      Action.GracefulStop ∈ (shutdown timeout sched).trace ∧
      Action.closeDone ∈ (shutdown timeout sched).trace) ∧
    ((shutdown timeout sched).doneClosed = false →
      (shutdown timeout sched).timer ≠ some true →
      (shutdown timeout sched).result = none) ∧
    (Action.recvDone ∈ (shutdown timeout sched).trace →
      (shutdown timeout sched).doneClosed = true ∧
      Action.recvTimer ∉ (shutdown timeout sched).trace ∧
      Action.Stop ∉ (shutdown timeout sched).trace) ∧
    (Action.recvTimer ∈ (shutdown timeout sched).trace →
      (shutdown timeout sched).timer = some true ∧
      Action.recvDone ∉ (shutdown timeout sched).trace) ∧
    (shutdown timeout sched).trace.count Action.Stop ≤ 1 ∧
    (Action.Stop ∈ (shutdown timeout sched).trace →
      Action.recvTimer ∈ (shutdown timeout sched).trace) ∧
    ((shutdown timeout sched).result = some .returned →
      (Action.recvDone ∈ (shutdown timeout sched).trace ∧
        Action.Stop ∉ (shutdown timeout sched).trace) ∨
      (Action.recvTimer ∈ (shutdown timeout sched).trace ∧
        (shutdown timeout sched).trace.count Action.Stop = 1)) ∧
    (∀ before t after, sched = before ++ t :: after →
      ((shutdown timeout before).parked = true →
        ((step (shutdown timeout before) t).doneClosed = true →
          Action.recvDone ∈ (shutdown timeout sched).trace) ∧
        ((step (shutdown timeout before) t).timer = some true →
          Action.recvTimer ∈ (shutdown timeout sched).trace)) ∧
      (∀ p, t = Tick.main p → (shutdown timeout before).parked = false →
        Action.recvDone ∉ (shutdown timeout before).trace →
        Action.recvTimer ∉ (shutdown timeout before).trace →
        ((shutdown timeout before).doneClosed = true →
          (shutdown timeout before).timer = some false →
          Action.recvDone ∈ (shutdown timeout sched).trace) ∧
        ((shutdown timeout before).doneClosed = false →
          (shutdown timeout before).timer = some true →
          Action.recvTimer ∈ (shutdown timeout sched).trace) ∧
        ((shutdown timeout before).doneClosed = true →
          (shutdown timeout before).timer = some true →
          (p = false → Action.recvDone ∈ (shutdown timeout sched).trace) ∧
          (p = true → Action.recvTimer ∈ (shutdown timeout sched).trace)))) ∧
    (∀ before after, sched = before ++ after →
      (Action.recvDone ∈ (shutdown timeout before).trace → 1 ≤ mainTicks after →
        (shutdown timeout sched).result = some .returned) ∧
      (Action.recvTimer ∈ (shutdown timeout before).trace → 2 ≤ mainTicks after →
        (shutdown timeout sched).result = some .returned ∧
        (shutdown timeout sched).trace.count Action.Stop = 1)) ∧
    (∀ before after, sched = before ++ after →
      (shutdown timeout before).doneClosed = true ∨
        (shutdown timeout before).timer = some true →
      4 ≤ mainTicks after → (shutdown timeout sched).result = some .returned) ∧
    (∀ before after, sched = before ++ Tick.bg :: after →
      (shutdown timeout before).bg ≠ none →
      Action.GracefulStop ∈ (shutdown timeout sched).trace) ∧
    ((shutdown timeout sched).timer ≠ none →
      Action.timeAfter timeout ∈ (shutdown timeout sched).trace ∧
      (shutdown timeout sched).deadline = (shutdown timeout sched).armedAt + timeout) ∧
    (∀ d, Action.timeAfter d ∈ (shutdown timeout sched).trace → d = timeout) ∧
    ((shutdown timeout sched).timer = some true →
      (shutdown timeout sched).armedAt + timeout ≤ (shutdown timeout sched).now) ∧
    (Action.recvTimer ∈ (shutdown timeout sched).trace →
      (shutdown timeout sched).armedAt + timeout ≤ (shutdown timeout sched).now) ∧
    (∀ before after, sched = before ++ after →
      (shutdown timeout before).bg ≠ none → (shutdown timeout before).drained = true →
      3 ≤ bgTicks after →
      (shutdown timeout sched).doneClosed = true ∧
      Action.closeDone ∈ (shutdown timeout sched).trace) := by
  obtain ⟨pc, hat, hdr, hrank⟩ := shutdown_at timeout sched
  obtain ⟨f1, f2, f3, f4, f5, f6, f7, f8, f9, f10, f11, f12⟩ :=
    shutdownAt_facts timeout pc _ hat
  have htimer := shutdown_timerAt timeout sched
  obtain ⟨ta1, ta2⟩ := shutdownAt_timeAfter timeout pc _ hat
  refine ⟨?_, ?_, ?_, ?_, ?_, ?_, ?_, ?_, ?_, ?_, ?_, ?_, ?_, ?_, ?_, ?_, ?_, ?_, ?_, ?_,
    ?_⟩
  · rw [f1]; split <;> simp
  · intro h; exact f6.2 (by omega)
  · intro h; exact f7.2 (by omega)
  · intro h
    have h4 := f7.1 h
    exact ⟨f5.2 (by omega), f6.2 (by omega)⟩
  · intro h
    unfold DrainAt at hdr
    rcases hdr with ⟨h1 | h1, _, _⟩ | ⟨_, _, h3⟩ | ⟨_, _, h3, _⟩
    · exact absurd h1 h
    · exact Or.inl h1
    · exact Or.inr h3
    · exact Or.inr h3
  · intro h
    unfold DrainAt at hdr
    rcases hdr with ⟨_, h2, _⟩ | ⟨_, h2, _⟩ | ⟨_, _, h3, h4⟩
    · rw [h] at h2; cases h2
    · rw [h] at h2; cases h2
    · exact ⟨h3, h4⟩
  · intro hd ht
    rw [f1]
    split
    · rename_i hpc
      rcases hpc with hpc | hpc
      · subst hpc
        have := f9 rfl
        rw [hd] at this; cases this
      · subst hpc
        exact absurd (f10 rfl) ht
    · rfl
  · intro h
    have htd := f2.1 h
    refine ⟨f9 htd, ?_, ?_⟩
    · intro h2
      have := f3.1 h2
      cases pc <;> simp_all [ShutdownPc.tookDone, ShutdownPc.tookTimer]
    · intro h2
      have hc : 0 < (shutdown timeout sched).trace.count Action.Stop :=
        List.count_pos_iff.2 h2
      rw [f4] at hc
      split at hc
      · rename_i hpc; subst hpc; simp [ShutdownPc.tookDone] at htd
      · omega
  · intro h
    have htt := f3.1 h
    refine ⟨f10 htt, ?_⟩
    intro h2
    have := f2.1 h2
    cases pc <;> simp_all [ShutdownPc.tookDone, ShutdownPc.tookTimer]
  · rw [f4]; split <;> omega
  · intro h2
    have hc : 0 < (shutdown timeout sched).trace.count Action.Stop :=
      List.count_pos_iff.2 h2
    rw [f4] at hc
    split at hc
    · rename_i hpc; subst hpc; exact f3.2 rfl
    · omega
  · intro hr
    rw [f1] at hr
    split at hr
    · rename_i hpc
      rcases hpc with hpc | hpc
      · subst hpc
        refine Or.inl ⟨f2.2 rfl, ?_⟩
        intro h2
        have hc : 0 < (shutdown timeout sched).trace.count Action.Stop :=
          List.count_pos_iff.2 h2
        rw [f4] at hc
        simp at hc
      · subst hpc
        exact Or.inr ⟨f3.2 rfl, by rw [f4]; simp⟩
    · cases hr
  · intro before t after hs
    obtain ⟨pcb, hatb, hdrb, _⟩ := shutdown_at timeout before
    obtain ⟨_, b2, b3, _, _, _, b7, b8, _, _, _, _⟩ := shutdownAt_facts timeout pcb _ hatb
    have hS : shutdown timeout sched = run (step (shutdown timeout before) t) after := by
      subst hs
      unfold shutdown
      rw [shutdown_run_append, shutdown_run_cons]
    constructor
    · intro hpk
      have hpc := b8.1 hpk
      subst hpc
      obtain ⟨w1, w2⟩ := parked_wakeup timeout _ t hatb
      rw [hS]
      exact ⟨fun h => mem_trace_run after _ _ (w1 h), fun h => mem_trace_run after _ _ (w2 h)⟩
    · intro p ht hpk hnd hnt
      subst ht
      rw [hS]
      have hpoll : (shutdown timeout before).timer ≠ none → pcb = .polling := by
        intro htm
        have h4 := b7.1 htm
        have h5 : pcb ≠ .parked := fun h => by rw [b8.2 h] at hpk; cases hpk
        have h6 : pcb.tookDone ≠ true := fun h => hnd (b2.2 h)
        have h7 : pcb.tookTimer ≠ true := fun h => hnt (b3.2 h)
        cases pcb <;>
          simp_all [ShutdownPc.rank, ShutdownPc.tookDone, ShutdownPc.tookTimer]
      refine ⟨?_, ?_, ?_⟩
      · intro hd htm
        have hpc := hpoll (by rw [htm]; simp)
        subst hpc
        exact mem_trace_run after _ _ ((polling_takes_ready timeout _ p hatb).1 hd htm).2
      · intro hd htm
        have hpc := hpoll (by rw [htm]; simp)
        subst hpc
        exact mem_trace_run after _ _ ((polling_takes_ready timeout _ p hatb).2.1 hd htm).2
      · intro hd htm
        have hpc := hpoll (by rw [htm]; simp)
        subst hpc
        exact ⟨fun hpf => mem_trace_run after _ _
            ((polling_takes_ready timeout _ p hatb).2.2.1 hd htm hpf).2,
          fun hpt => mem_trace_run after _ _
            ((polling_takes_ready timeout _ p hatb).2.2.2 hd htm hpt).2⟩
  · intro before after hs
    obtain ⟨pcb, hatb, hdrb, _⟩ := shutdown_at timeout before
    obtain ⟨_, b2, b3, _, _, _, _, _, _, _, _, _⟩ := shutdownAt_facts timeout pcb _ hatb
    have hS : shutdown timeout sched = run (shutdown timeout before) after := by
      subst hs
      unfold shutdown
      rw [shutdown_run_append]
    obtain ⟨pc2, hat2, _, _, _, g3, g4⟩ := shutdownAt_run timeout after _ pcb hatb hdrb
    rw [← hS] at hat2
    obtain ⟨e1, _, _, e4, _, _, _, _, _, _, _, _⟩ := shutdownAt_facts timeout pc2 _ hat2
    constructor
    · intro hmem hn
      have htd := b2.1 hmem
      obtain ⟨k1, k2⟩ := g3 htd
      have hrem : pcb.remaining ≤ 1 := tookDone_remaining_le pcb htd
      have := tookDone_remaining_zero pc2 k1 (by omega)
      subst this
      rw [e1]; simp
    · intro hmem hn
      have htt := b3.1 hmem
      obtain ⟨k1, k2⟩ := g4 htt
      have hrem : pcb.remaining ≤ 2 := remaining_le pcb
      have := tookTimer_remaining_zero pc2 k1 (by omega)
      subst this
      rw [e1, e4]; simp

  · intro before after hs hready hn
    obtain ⟨pcb, hatb, _, _⟩ := shutdown_at timeout before
    have hS : shutdown timeout sched = run (shutdown timeout before) after := by
      subst hs
      unfold shutdown
      rw [shutdown_run_append]
    obtain ⟨pc2, hat2, hle, h4⟩ := ready_run timeout after _ pcb hatb hready
    rw [← hS] at hat2
    obtain ⟨e1, _, _, _, _, _, _, _, _, _, _, _⟩ := shutdownAt_facts timeout pc2 _ hat2
    rw [e1, if_pos (toReturn_zero pc2 (by omega))]
  · intro before after hs hbg
    obtain ⟨_, _, hdrb, _⟩ := shutdown_at timeout before
    have hS : shutdown timeout sched
        = run (step (shutdown timeout before) Tick.bg) after := by
      subst hs
      unfold shutdown
      rw [shutdown_run_append, shutdown_run_cons]
    rw [hS]
    exact mem_trace_run after _ _ (drain_first_step _ hdrb hbg)
  · intro htm
    refine ⟨ta2 htm, ?_⟩
    unfold TimerAt at htimer
    rcases htimer with h | ⟨h1, _, _⟩
    · exact absurd h htm
    · exact h1
  · exact ta1
  · intro ht
    unfold TimerAt at htimer
    rcases htimer with h | ⟨h1, _, h3⟩
    · rw [ht] at h; cases h
    · rw [← h1]; exact h3 ht
  · intro hmem
    have ht := f10 (f3.1 hmem)
    unfold TimerAt at htimer
    rcases htimer with h | ⟨h1, _, h3⟩
    · rw [ht] at h; cases h
    · rw [← h1]; exact h3 ht
  · intro before after hs hbg hdrained hn
    obtain ⟨pcb, hatb, hdrb, _⟩ := shutdown_at timeout before
    have hS : shutdown timeout sched = run (shutdown timeout before) after := by
      subst hs
      unfold shutdown
      rw [shutdown_run_append]
    obtain ⟨a1, a2, a3⟩ := drain_run timeout after _ pcb hatb hdrb hbg hdrained
    rw [← hS] at a1 a2 a3
    have hle := (bgLeft_facts _ hdrb hbg).1
    exact (bgLeft_facts _ a1 a2).2 (by omega)

/-- C9 amended, at the tie: the drain completes before the `select` starts, the timer
of `time.After(0)` fires, the `select` finds both channels ready and takes `<-done`;
the call returns and `Stop` is not called. -/
theorem gracefulShutdown_select_outcome_witness :
    (shutdown 0 (drainFirstPrefix ++ [Tick.main false, Tick.timer])).doneClosed = true ∧
    (shutdown 0 (drainFirstPrefix ++ [Tick.main false, Tick.timer])).timer = some true ∧
    (shutdown 0 (drainFirstPrefix ++ tieDoneSuffix)).result = some .returned ∧
    Action.recvDone ∈ (shutdown 0 (drainFirstPrefix ++ tieDoneSuffix)).trace ∧
    Action.Stop ∉ (shutdown 0 (drainFirstPrefix ++ tieDoneSuffix)).trace := by
  obtain ⟨_, _, _, _, _, _, _, c8, _, _, _, _, c13, c14, _, _, _, _, _, _, _⟩ :=
    gracefulShutdown_select_outcome 0 (drainFirstPrefix ++ tieDoneSuffix)
  obtain ⟨_, _, _, _, _, _, _, _, _, _, _, _, d13, _, _, _, _, _, _, _, _⟩ :=
    gracefulShutdown_select_outcome 0
      (drainFirstPrefix ++ [Tick.main false, Tick.timer, Tick.main false])
  have hd : (shutdown 0 (drainFirstPrefix ++ [Tick.main false, Tick.timer])).doneClosed
      = true := by decide
  have ht : (shutdown 0 (drainFirstPrefix ++ [Tick.main false, Tick.timer])).timer
      = some true := by decide
  have hpick : Action.recvDone ∈
      (shutdown 0 (drainFirstPrefix ++ [Tick.main false, Tick.timer, Tick.main false])).trace :=
    ((d13 (drainFirstPrefix ++ [Tick.main false, Tick.timer]) (Tick.main false) []
        (by decide)).2 false rfl (by decide) (by decide) (by decide)).2.2 hd ht |>.1 rfl
  have hmem : Action.recvDone ∈ (shutdown 0 (drainFirstPrefix ++ tieDoneSuffix)).trace :=
    ((c13 (drainFirstPrefix ++ [Tick.main false, Tick.timer]) (Tick.main false)
        [Tick.main false] (by decide)).2 false rfl (by decide) (by decide) (by decide)).2.2
      hd ht |>.1 rfl
  exact ⟨hd, ht,
    (c14 (drainFirstPrefix ++ [Tick.main false, Tick.timer, Tick.main false])
      [Tick.main false] (by decide)).1 hpick (by decide),
    hmem, (c8 hmem).2.2⟩

end main
